import Mathlib

/-!
Verification development for the submission-checking pipeline of the
education-platform repository (src/app/services/ai_checker.py and
src/app/utils/cache.py).

Shallow embedding conventions:
* Python values that flow through untyped dicts (parsed AI JSON, the
  `detailed_analysis` map, dataclass snapshots passed to the cache) are
  modelled by the inductive type `PyVal`.  Python dicts are association
  lists in insertion order, matching CPython's dict semantics.
* Python `float` arithmetic is modelled with exact rationals `ℚ`.
* Fallible Python code (code that can raise) is modelled with
  `Except String α`; the string is the exception message.
* External effects (OpenCV preprocessing, pytesseract OCR, the OpenAI
  client, wall-clock time) are modelled as oracle fields of an `Env`
  record: each oracle gives the outcome (normal return or raised
  exception) of the corresponding call, per attempt number.
* The Redis-backed cache (`CacheManager`) is modelled by a `Store`
  record holding the `check:*` key/value entries and the per-user
  `works:{user_id}` lists.
-/

/-- Quality tiers, from `CheckingQuality` in src/app/services/ai_checker.py. -/
inductive CheckingQuality where
  | basic
  | standard
  | advanced
  | premium
deriving DecidableEq

/-- Model of runtime Python values as they appear in this pipeline:
JSON-style scalars and containers, plus the `CheckingQuality` enum member
(which is *not* JSON-serializable — `json.dumps` raises `TypeError` on it). -/
inductive PyVal where
  | nullV
  | boolV (b : Bool)
  | numV (q : ℚ)
  | strV (s : String)
  | arrV (xs : List PyVal)
  | dictV (kvs : List (String × PyVal))
  | enumV (q : CheckingQuality)

open PyVal

/-- The `CheckingResult` dataclass (src/app/services/ai_checker.py lines 36-48).
`score` and `processing_time` are always set from numeric expressions by the
code, so they are typed `ℚ`; `feedback`, `detailed_analysis`,
`confidence_score` and `suggestions` are copied from untyped dict entries
(the dataclass performs no type validation), so they stay `PyVal`. -/
structure CheckingResult where
  recognized_text : String
  score : ℚ
  feedback : PyVal
  detailed_analysis : PyVal
  confidence_score : PyVal
  processing_time : ℚ
  status : String
  quality_level : CheckingQuality
  suggestions : PyVal
  plagiarism_score : Option PyVal

/-! ### Python dict operations (association lists, insertion-ordered) -/

/-- `d[k]` lookup returning `none` when the key is absent. -/
def dictGet (d : List (String × PyVal)) (k : String) : Option PyVal :=
  (d.find? (fun p => p.1 == k)).map (·.2)

/-- `k in d`. -/
def dictHas (d : List (String × PyVal)) (k : String) : Bool :=
  (d.find? (fun p => p.1 == k)).isSome

/-- `d[k] = v`: overwrite the (unique) existing entry in place — CPython
keeps the original position — or append a new entry at the end. -/
def dictSet : List (String × PyVal) → String → PyVal → List (String × PyVal)
  | [], k, v => [(k, v)]
  | (k0, v0) :: tl, k, v =>
      if k0 == k then (k, v) :: tl else (k0, v0) :: dictSet tl k v

/-! ### `_validate_ai_response` and `_get_default_value`
(src/app/services/ai_checker.py lines 507-538) -/

/-- Digits of a decimal literal folded into a number (`none` when empty or
when a non-digit occurs). -/
def digitsVal (ds : List Char) : Option ℕ :=
  if ds.isEmpty then none
  else ds.foldl (fun acc c =>
    match acc with
    | none => none
    | some n => if c.isDigit then some (n * 10 + (c.toNat - 48)) else none)
    (some 0)

/-- Integer parsing for Python's `float(str)`: strip surrounding
whitespace, optional sign, decimal digits. -/
def pyStrToInt (s : String) : Option ℤ :=
  let cs := ((s.toList.dropWhile Char.isWhitespace).reverse.dropWhile
    Char.isWhitespace).reverse
  match cs with
  | '-' :: ds => (digitsVal ds).map (fun n => -(n : ℤ))
  | '+' :: ds => (digitsVal ds).map (fun n => (n : ℤ))
  | ds => (digitsVal ds).map (fun n => (n : ℤ))

/-- Python's `float(x)` on a JSON-decoded value: succeeds on numbers and
bools, raises `TypeError`/`ValueError` on `None`, lists, dicts and
non-numeric strings.  (For strings we model integer literals; Python also
accepts fractional literals, which no theorem below depends on.) -/
def pyFloat : PyVal → Except String ℚ
  | numV q => .ok q
  | boolV b => .ok (if b then 1 else 0)
  | strV s =>
      match pyStrToInt s with
      | some n => .ok (n : ℚ)
      | none => .error "ValueError: could not convert string to float"
  | _ => .error "TypeError: float() argument must be a string or a real number"

/-- `_get_default_value` (lines 529-538). -/
def get_default_value : String → PyVal
  | "score" => numV 50
  | "feedback" => strV "Не удалось полностью проанализировать работу"
  | "detailed_analysis" => dictV []
  | "confidence" => numV (1/2)
  | "suggestions" => arrV []
  | _ => nullV

/-- One step of the `required_fields` loop in `_validate_ai_response`:
`if field not in response: response[field] = default`, and likewise the
`confidence`/`suggestions` defaulting. -/
def ensureField (d : List (String × PyVal)) (k : String) (v : PyVal) :
    List (String × PyVal) :=
  if dictHas d k then d else dictSet d k v

/-- `_validate_ai_response` (lines 507-527).  The loop over
`required_fields = ["score", "feedback", "detailed_analysis"]` is unrolled.
`float(response.get("score", 0))` can raise on a non-numeric score, which
this models as `Except.error`. -/
def validate_ai_response (resp : List (String × PyVal)) :
    Except String (List (String × PyVal)) :=
  let r1 := ensureField resp "score" (get_default_value "score")
  let r2 := ensureField r1 "feedback" (get_default_value "feedback")
  let r3 := ensureField r2 "detailed_analysis" (get_default_value "detailed_analysis")
  match pyFloat ((dictGet r3 "score").getD (numV 0)) with
  | .error e => .error e
  | .ok q =>
      let r4 := dictSet r3 "score" (numV (max 0 (min 100 q)))
      let r5 := ensureField r4 "confidence" (numV (4/5))
      let r6 := ensureField r5 "suggestions" (arrV [])
      .ok r6

/-! ### `_basic_analysis` — the heuristic scorer
(src/app/services/ai_checker.py lines 387-434) -/

/-- Split a character list on whitespace runs, dropping empty pieces;
`acc` holds the current word reversed. -/
def splitWsAux : List Char → List Char → List (List Char)
  | [], acc => if acc.isEmpty then [] else [acc.reverse]
  | c :: rest, acc =>
      if c.isWhitespace then
        if acc.isEmpty then splitWsAux rest []
        else acc.reverse :: splitWsAux rest []
      else splitWsAux rest (c :: acc)

/-- Python `str.split()` with no arguments: split on whitespace runs,
dropping empty pieces. -/
def pySplit (s : String) : List String :=
  (splitWsAux s.toList []).map String.mk

/-- Python `str.lower()` (character-wise; `Char.toLower` covers the ASCII
range, which is all the concrete inputs below use). -/
def pyLower (s : String) : String :=
  String.mk (s.toList.map Char.toLower)

/-- `set(s.lower().split())` as an insertion-ordered deduplicated list. -/
def wordSet (s : String) : List String :=
  (pySplit (pyLower s)).dedup

/-- `f"{relevance_score:.0%}"`: percentage with zero decimals (rounding
half up; Python uses round-half-even, which differs only at exact halves
and is never hit by the concrete inputs used below). -/
def pctFmt (c d : ℕ) : String :=
  toString ((200 * c + d) / (2 * d)) ++ "%"

/-- `_basic_analysis` (lines 387-434), the dependency-free heuristic scorer.
Returns the analysis dict.  Score arithmetic: `+30` when
`len(recognized_text) > 50`, plus `int(relevance_score * 40)` where
`relevance_score = len(common_words) / max(len(task_words), 1)`
(exact floor `40 * c / t` on naturals), plus a flat `+20`, capped by
`min(score, 100)`. -/
def basic_analysis (recognized_text task_description : String) :
    List (String × PyVal) :=
  let text_length := recognized_text.length
  let lenBonus : ℕ := if 50 < text_length then 30 else 0
  let fb1 : String := if 50 < text_length then "✅ Достаточный объем работы"
                      else "❌ Работа слишком короткая"
  let sug1 : List PyVal := if 50 < text_length then []
                           else [strV "Напишите более развернутый ответ"]
  let task_words := wordSet task_description
  let text_words := wordSet recognized_text
  let common_words := task_words.filter (fun w => text_words.contains w)
  let denom : ℕ := max task_words.length 1
  let relPoints : ℕ := 40 * common_words.length / denom
  -- `relevance_score > 0.3`  ⟺  `10 * c > 3 * denom` over exact rationals
  let relevant : Bool := decide (3 * denom < 10 * common_words.length)
  let fb2 : String := if relevant then "✅ Работа соответствует заданию"
                      else "⚠️ Работа слабо связана с заданием"
  let sug2 : List PyVal := if relevant then []
                           else [strV "Внимательно прочитайте задание"]
  let score : ℕ := min (lenBonus + relPoints + 20) 100
  [("score", numV (score : ℚ)),
   ("feedback", strV (fb1 ++ "\n" ++ fb2)),
   ("detailed_analysis", dictV
     [("текст_распознан", boolV (decide (0 < text_length))),
      ("длина_текста", numV (text_length : ℚ)),
      ("соответствие_заданию", strV (pctFmt common_words.length denom))]),
   ("confidence", numV (1/2)),
   ("suggestions", arrV (sug1 ++ sug2))]

/-- Reads the numeric `score` entry of an analysis dict; both analysis
producers (`basic_analysis` and `validate_ai_response`) always store a
number there, so the fallback branch is unreachable on their outputs. -/
def scoreOfDict (d : List (String × PyVal)) : ℚ :=
  match dictGet d "score" with
  | some (numV q) => q
  | _ => 0

/-! ### `_calculate_similarity` — `difflib.SequenceMatcher(None, a, b).ratio()`
(src/app/services/ai_checker.py lines 456-459)

Modelled from difflib's documented Ratcliff–Obershelp algorithm on character
sequences: repeatedly take the longest contiguous matching block (earliest
in `a`, then earliest in `b`, among the longest), recurse on the pieces to
the left and to the right, and return `2 * M / (len(a) + len(b))` where `M`
is the total number of matched characters (`1.0` when both are empty).
difflib's autojunk heuristic (which only alters results when the second
sequence has 200 or more characters) is not modelled. -/

/-- Length of the longest common leading run of two sequences. -/
def leadMatchLen : List Char → List Char → ℕ
  | x :: xs, y :: ys => if x = y then leadMatchLen xs ys + 1 else 0
  | _, _ => 0

/-- One candidate step of `find_longest_match`: compare the matching run
at `(i, j)` against the best block seen so far, replacing it only when
strictly longer (so the earliest maximal block wins). -/
def lmStep (a b : List Char) (i : ℕ) (best : ℕ × ℕ × ℕ) (j : ℕ) : ℕ × ℕ × ℕ :=
  let k := leadMatchLen (a.drop i) (b.drop j)
  if best.2.2 < k then (i, j, k) else best

/-- Scan all `j` for a fixed `i`. -/
def lmRow (a b : List Char) (best : ℕ × ℕ × ℕ) (i : ℕ) : ℕ × ℕ × ℕ :=
  (List.range (b.length + 1)).foldl (lmStep a b i) best

/-- `find_longest_match` over the whole sequences: the triple
`(i, j, size)` of the longest matching block, scanning `i` then `j`
in increasing order and keeping the first block of maximal size. -/
def longestMatch (a b : List Char) : ℕ × ℕ × ℕ :=
  (List.range (a.length + 1)).foldl (lmRow a b) (0, 0, 0)

/-- Total matched characters over all matching blocks, fuel-indexed so that
the recursion is structural (the fuel `a.length + b.length` always
suffices, see `totalMatches`). -/
def tmF : ℕ → List Char → List Char → ℕ
  | 0, _, _ => 0
  | fuel + 1, a, b =>
      let m := longestMatch a b
      if m.2.2 = 0 then 0
      else
        m.2.2 + tmF fuel (a.take m.1) (b.take m.2.1)
              + tmF fuel (a.drop (m.1 + m.2.2)) (b.drop (m.2.1 + m.2.2))

/-- `M`: the total size of all matching blocks found by the recursive
longest-match decomposition. -/
def totalMatches (a b : List Char) : ℕ :=
  tmF (a.length + b.length) a b

/-- `SequenceMatcher.ratio()`: `2.0 * matches / (len(a) + len(b))`, and
`1.0` when both sequences are empty. -/
def ratcliffRatio (a b : List Char) : ℚ :=
  if a.length + b.length = 0 then 1
  else 2 * (totalMatches a b : ℚ) / ((a.length : ℚ) + (b.length : ℚ))

/-- `_calculate_similarity` (lines 456-459). -/
def calculate_similarity (text1 text2 : String) : ℚ :=
  ratcliffRatio text1.toList text2.toList

/-! ### The cache store (src/app/utils/cache.py) -/

/-- The Redis-backed store as used by this pipeline: the `check:*`
key/value entries and the per-user `works:{user_id}` lists (most recent
first, because `lpush` prepends). -/
structure Store where
  checks : List (String × PyVal)
  works : List (ℕ × List String)

/-- The list stored under `works:{user_id}` (empty when absent, as
`CacheManager.lrange` returns `[]` for a missing key). -/
def worksFor (store : Store) (user_id : ℕ) : List String :=
  (((store.works.find? (fun p => p.1 == user_id)).map (·.2)).getD [])

/-- `CacheManager.lpush(f"works:{user_id}", text)`: prepend to the user's
list, creating it when absent. -/
def pushWork (store : Store) (user_id : ℕ) (text : String) : Store :=
  if store.works.any (fun p => p.1 == user_id) then
    { store with works := store.works.map (fun p =>
        if p.1 == user_id then (p.1, text :: p.2) else p) }
  else
    { store with works := store.works ++ [(user_id, [text])] }

/-- `_check_plagiarism` (src/app/services/ai_checker.py lines 436-454):
read the first 101 entries of the user's history
(`lrange(f"works:{user_id}", 0, 100)` is inclusive on both ends), take the
maximum similarity with the submitted text (starting from `0.0`), push the
current text onto the history only afterwards, and return
`100 - max_similarity * 100`. -/
def check_plagiarism (store : Store) (text : String) (user_id : ℕ) : ℚ × Store :=
  let similar_works := (worksFor store user_id).take 101
  let max_similarity : ℚ :=
    similar_works.foldl (fun m work => max m (calculate_similarity text work)) 0
  (100 - max_similarity * 100, pushWork store user_id text)

/-! ### Cache serialization (`CacheManager.set`, src/app/utils/cache.py
lines 73-95) -/

/-- Whether `json.dumps` succeeds on a value: everything here is
serializable except the `CheckingQuality` enum member (and any container
holding one). -/
def jsonSerializable : PyVal → Bool
  | nullV => true
  | boolV _ => true
  | numV _ => true
  | strV _ => true
  | enumV _ => false
  | arrV [] => true
  | arrV (x :: xs) => jsonSerializable x && jsonSerializable (arrV xs)
  | dictV [] => true
  | dictV ((_, v) :: kvs) => jsonSerializable v && jsonSerializable (dictV kvs)

/-- `CacheManager.set(key, value, ttl)` for a dict value: `json.dumps` the
value and store it.  A `TypeError` from `json.dumps` is caught inside
`set`, which then returns `False` with the store unchanged.  (JSON
round-tripping of a serializable value is modelled as the identity.) -/
def cache_set (store : Store) (key : String) (v : PyVal) : Store × Bool :=
  if jsonSerializable v then
    ({ store with checks := dictSet store.checks key v }, true)
  else (store, false)

/-- `CacheManager.get(key)` for a `check:*` key: `None` on a miss, the
deserialized value on a hit; every exception is caught inside `get`. -/
def cache_get_check (store : Store) (key : String) : Option PyVal :=
  dictGet store.checks key

/-- Python truthiness of a value, for `if cached_result and not settings.DEBUG`. -/
def pyTruthy : PyVal → Bool
  | nullV => false
  | boolV b => b
  | numV q => decide (q ≠ 0)
  | strV s => !s.isEmpty
  | arrV xs => !xs.isEmpty
  | dictV kvs => !kvs.isEmpty
  | enumV _ => true

/-! ### Cache snapshots of `CheckingResult` -/

/-- `checking_result.__dict__` as passed to `cache_manager.set`
(src/app/services/ai_checker.py lines 200-204): the dataclass fields in
declaration order; the `quality_level` entry holds the (non-serializable)
enum member. -/
def resultToDict (r : CheckingResult) : PyVal :=
  dictV [("recognized_text", strV r.recognized_text),
         ("score", numV r.score),
         ("feedback", r.feedback),
         ("detailed_analysis", r.detailed_analysis),
         ("confidence_score", r.confidence_score),
         ("processing_time", numV r.processing_time),
         ("status", strV r.status),
         ("quality_level", enumV r.quality_level),
         ("suggestions", r.suggestions),
         ("plagiarism_score", r.plagiarism_score.getD nullV)]

/-- `CheckingResult(**cached_result)` on a cache hit (line 156).  Only
well-typed snapshots are representable in the typed model; any other
stored shape is modelled as the `TypeError` Python would raise for wrong
keyword arguments.  This branch is unreachable for stores produced by
this pipeline (the cache write never succeeds, see
`cache_set_result_fails`). -/
def resultOfDict (v : PyVal) : Except String CheckingResult :=
  match v with
  | dictV kvs =>
      match dictGet kvs "recognized_text", dictGet kvs "score",
            dictGet kvs "feedback", dictGet kvs "detailed_analysis",
            dictGet kvs "confidence_score", dictGet kvs "processing_time",
            dictGet kvs "status", dictGet kvs "quality_level",
            dictGet kvs "suggestions" with
      | some (strV t), some (numV sc), some fb, some da, some cf,
        some (numV pt), some (strV st), some (enumV ql), some sg =>
          .ok { recognized_text := t, score := sc, feedback := fb,
                detailed_analysis := da, confidence_score := cf,
                processing_time := pt, status := st, quality_level := ql,
                suggestions := sg,
                plagiarism_score := dictGet kvs "plagiarism_score" }
      | _, _, _, _, _, _, _, _, _ =>
          .error "TypeError: unexpected keyword argument"
  | _ => .error "TypeError: argument after ** must be a mapping"

/-- `_generate_cache_key` (lines 540-548): md5 of the first 1024 bytes of
the photo file joined with md5 of the task description.  `photo_head`
stands for those first 1024 bytes; the two md5 hashes are modelled as the
identity (injective content addressing). -/
def generate_cache_key (photo_head task_description : String) : String :=
  photo_head ++ ":" ++ task_description

/-! ### The execution environment -/

/-- Oracle outcomes for every external effect reached by one
`check_photo_submission` invocation.  `aiAdvanced n` / `aiStandard n` give
the outcome of the `n`-th completion call made by
`_advanced_analysis` / `_standard_analysis`: either a raised exception
(network error, timeout, `json.loads` failure, missing-client
`AttributeError`, unreadable photo file) or the parsed JSON dict.
`plagFault` injects an exception inside `_check_plagiarism` (before its
final `lpush`); `elapsed` is the wall-clock duration reported by
`time.time()` differences. -/
structure Env where
  debug : Bool
  hasClient : Bool
  preprocess : Except String Unit
  ocr : Except String String
  aiAdvanced : ℕ → Except String (List (String × PyVal))
  aiStandard : ℕ → Except String (List (String × PyVal))
  plagFault : Option String
  elapsed : ℚ

/-- One attempt of `_advanced_analysis` (lines 277-330): the body under
the `@retry` decorator — photo read, completion call, `json.loads`,
then `_validate_ai_response` (whose exceptions are also retried). -/
def advanced_attempt (env : Env) (n : ℕ) : Except String (List (String × PyVal)) :=
  match env.aiAdvanced n with
  | .error e => .error e
  | .ok resp => validate_ai_response resp

/-- `_advanced_analysis` under `@retry(stop=stop_after_attempt(3), ...)`:
up to three attempts, first success wins; after the third failure tenacity
raises (`RetryError`), modelled as the last error. -/
def advanced_analysis (env : Env) : Except String (List (String × PyVal)) :=
  match advanced_attempt env 1 with
  | .ok r => .ok r
  | .error _ =>
      match advanced_attempt env 2 with
      | .ok r => .ok r
      | .error _ => advanced_attempt env 3

/-- `_standard_analysis` (lines 332-385): fall back to `_basic_analysis`
when no client is configured; otherwise a *single* completion call inside
`try`, with any exception (including one from `_validate_ai_response`)
falling back to `_basic_analysis`.  There is no retry decorator here. -/
def standard_analysis (env : Env) (recognized_text task_description task_type : String) :
    List (String × PyVal) :=
  if !env.hasClient then basic_analysis recognized_text task_description
  else
    match env.aiStandard 1 with
    | .error _ => basic_analysis recognized_text task_description
    | .ok resp =>
        match validate_ai_response resp with
        | .error _ => basic_analysis recognized_text task_description
        | .ok r => r

/-! ### `check_photo_submission` (src/app/services/ai_checker.py
lines 135-220) -/

/-- The body of the `try` block (lines 158-182): preprocessing, OCR, the
tier branch, and for premium the plagiarism pass.  Returns the recognized
text, the analysis dict and the store after the premium history push.
The first raised exception aborts the block; no store mutation can have
happened before a raise (the only mutation, the plagiarism `lpush`, is
the last fallible stage's final step and every later step is
non-raising), so the error carries no store. -/
def run_pipeline (env : Env) (store : Store)
    (task_description task_type checking_criteria : String) (user_id : ℕ)
    (quality : CheckingQuality) :
    Except String (String × List (String × PyVal) × Store) :=
  match env.preprocess with
  | .error e => .error e
  | .ok _ =>
  match env.ocr with
  | .error e => .error e
  | .ok recognized_text =>
  match quality with
  | .basic =>
      .ok (recognized_text, basic_analysis recognized_text task_description, store)
  | .standard =>
      .ok (recognized_text,
           standard_analysis env recognized_text task_description task_type, store)
  | .advanced =>
      match advanced_analysis env with
      | .error e => .error e
      | .ok r => .ok (recognized_text, r, store)
  | .premium =>
      match advanced_analysis env with
      | .error e => .error e
      | .ok r =>
          match env.plagFault with
          | some e => .error e
          | none =>
              let pr := check_plagiarism store recognized_text user_id
              .ok (recognized_text,
                   dictSet r "plagiarism_score" (numV pr.1), pr.2)

/-- Assembling the success `CheckingResult` (lines 186-197):
`result["score"]`, `result["feedback"]`, `result["detailed_analysis"]`,
`result.get("confidence", 0.8)`, `result.get("suggestions", [])`,
`result.get("plagiarism_score")`, `status="checked"`. -/
def build_checking_result (recognized_text : String)
    (result : List (String × PyVal)) (quality : CheckingQuality)
    (processing_time : ℚ) : CheckingResult :=
  { recognized_text := recognized_text
    score := scoreOfDict result
    feedback := (dictGet result "feedback").getD nullV
    detailed_analysis := (dictGet result "detailed_analysis").getD nullV
    confidence_score := (dictGet result "confidence").getD (numV (4/5))
    processing_time := processing_time
    status := "checked"
    quality_level := quality
    suggestions := (dictGet result "suggestions").getD (arrV [])
    plagiarism_score := dictGet result "plagiarism_score" }

/-- The `except Exception` result (lines 208-220). -/
def failed_result (e : String) (quality : CheckingQuality)
    (processing_time : ℚ) : CheckingResult :=
  { recognized_text := ""
    score := 0
    feedback := strV ("Ошибка при проверке: " ++ e)
    detailed_analysis := dictV [("error", strV e)]
    confidence_score := numV 0
    processing_time := processing_time
    status := "failed"
    quality_level := quality
    suggestions := arrV [strV "Попробуйте загрузить более четкое фото"]
    plagiarism_score := none }

/-- The cache-miss path of `check_photo_submission`: run the `try` block,
then on success build the result and attempt the cache write (line 200,
TTL 3600), on a caught exception return the failed result with the store
as it was at the raise. -/
def computed_check (env : Env) (store : Store) (key : String)
    (task_description task_type checking_criteria : String) (user_id : ℕ)
    (quality : CheckingQuality) : Except String (CheckingResult × Store) :=
  match run_pipeline env store task_description task_type checking_criteria
        user_id quality with
  | .ok (recognized_text, result, store1) =>
      let r := build_checking_result recognized_text result quality env.elapsed
      .ok (r, (cache_set store1 key (resultToDict r)).1)
  | .error e => .ok (failed_result e quality env.elapsed, store)

/-- `check_photo_submission` (lines 135-220).  The cache lookup and the
cache-hit reconstruction `CheckingResult(**cached_result)` happen *before*
the `try` block, so an exception there would propagate (modelled by the
top-level `Except`). -/
def check_photo_submission (env : Env) (store : Store)
    (photo_head task_description task_type checking_criteria : String)
    (user_id : ℕ) (quality : CheckingQuality) :
    Except String (CheckingResult × Store) :=
  let key := "check:" ++ generate_cache_key photo_head task_description
  match cache_get_check store key with
  | some v =>
      if pyTruthy v && !env.debug then
        match resultOfDict v with
        | .ok r => .ok (r, store)
        | .error e => .error e
      else
        computed_check env store key task_description task_type
          checking_criteria user_id quality
  | none =>
      computed_check env store key task_description task_type
        checking_criteria user_id quality

/-! ### Definitions taken from the spec's words (for comparison only) -/

/-- Modelled from the spec: the Heuristic Scorer formula as §4.6 words it —
"start at 0; if recognized_text length > 20 chars, +30; if length > 100
chars, +20; compute lexical overlap = |words(task_description) ∩
words(recognized_text)| / max(1, |words(task_description)|), scaled into a
points contribution bounded by the tier's scaling constant; add a flat +20
participation bonus; clamp total to [0,100]".  To be compared against
`basic_analysis`. -/
def spec_heuristic_score (recognized_text task_description : String)
    (scaling : ℕ) : ℕ :=
  let len := recognized_text.length
  let task_words := wordSet task_description
  let text_words := wordSet recognized_text
  let overlapCount := (task_words.filter (fun w => text_words.contains w)).length
  let overlapPts := scaling * overlapCount / max 1 task_words.length
  min ((if 20 < len then 30 else 0) + (if 100 < len then 20 else 0)
        + overlapPts + 20) 100

/-! ### Observation helpers (typed projections used to state concrete
facts about results) -/

/-- The plagiarism score as a rational, when it is a stored number. -/
def plagQ (r : CheckingResult) : Option ℚ :=
  match r.plagiarism_score with
  | some (numV q) => some q
  | _ => none

/-- The confidence as a rational, when it is a number. -/
def confQ (r : CheckingResult) : Option ℚ :=
  match r.confidence_score with
  | numV q => some q
  | _ => none

/-- The feedback when it is a string (it always is on the paths below). -/
def fbStr (r : CheckingResult) : String :=
  match r.feedback with
  | strV s => s
  | _ => ""

/-- Whether `pre` is a leading run of `l`. -/
def leadsWith : List Char → List Char → Bool
  | [], _ => true
  | _ :: _, [] => false
  | n :: ns, h :: hs => n == h && leadsWith ns hs

/-- Whether `needle` occurs contiguously inside `hay`. -/
def containsSub (hay needle : List Char) : Bool :=
  match hay with
  | [] => needle.isEmpty
  | _ :: rest => leadsWith needle hay || containsSub rest needle

/-- Whether `marker` occurs as a substring of `s`. -/
def containsMarker (s marker : String) : Bool :=
  containsSub s.toList marker.toList

/-- The boolean entry `k` of the result's `detailed_analysis` dict. -/
def detailBool (r : CheckingResult) (k : String) : Option Bool :=
  match r.detailed_analysis with
  | dictV kvs =>
      match dictGet kvs k with
      | some (boolV b) => some b
      | _ => none
  | _ => none

/-- The result component of an orchestrator outcome (`none` would mean a
propagated exception). -/
def resultOf (x : Except String (CheckingResult × Store)) : Option CheckingResult :=
  match x with
  | .ok (r, _) => some r
  | .error _ => none

/-- The store component of an orchestrator outcome. -/
def storeOf (x : Except String (CheckingResult × Store)) : Option Store :=
  match x with
  | .ok (_, s) => some s
  | .error _ => none

/-! ### Concrete fixtures for counterexamples and witnesses -/

/-- The empty store (fresh Redis). -/
def emptyStore : Store := ⟨[], []⟩

/-- A well-formed AI response with score 77. -/
def okResp77 : List (String × PyVal) :=
  [("score", numV 77), ("feedback", strV "Хорошая работа"),
   ("detailed_analysis", dictV []), ("confidence", numV (9/10)),
   ("suggestions", arrV [])]

/-- An AI response whose `confidence` field is 5 — it passes
`_validate_ai_response` untouched. -/
def respConf5 : List (String × PyVal) :=
  [("score", numV 50), ("feedback", strV "ok"),
   ("detailed_analysis", dictV []), ("confidence", numV 5),
   ("suggestions", arrV [])]

/-- Environment where preprocessing raises (spec Scenario D). -/
def envPreprocessFail : Env :=
  { debug := false, hasClient := true,
    preprocess := .error "cv2.error: empty image",
    ocr := .ok "", aiAdvanced := fun _ => .error "not reached",
    aiStandard := fun _ => .error "not reached",
    plagFault := none, elapsed := 1 }

/-- Environment where every AI attempt raises (spec Scenario C). -/
def envAdvFailAll : Env :=
  { debug := false, hasClient := true, preprocess := .ok (),
    ocr := .ok "решение задачи",
    aiAdvanced := fun _ => .error "APIConnectionError",
    aiStandard := fun _ => .error "APIConnectionError",
    plagFault := none, elapsed := 1 }

/-- Environment where the AI call fails twice and succeeds on the third
attempt (spec Scenario B). -/
def envThirdTry : Env :=
  { debug := false, hasClient := true, preprocess := .ok (),
    ocr := .ok "",
    aiAdvanced := fun n => if n ≤ 2 then .error "APITimeoutError" else .ok okResp77,
    aiStandard := fun n => if n ≤ 2 then .error "APITimeoutError" else .ok okResp77,
    plagFault := none, elapsed := 1 }

/-- Environment whose AI service reports an out-of-range confidence. -/
def envConf5 : Env :=
  { debug := false, hasClient := true, preprocess := .ok (),
    ocr := .ok "", aiAdvanced := fun _ => .ok respConf5,
    aiStandard := fun _ => .ok respConf5,
    plagFault := none, elapsed := 1 }

/-- Environment for two identical premium-tier calls. -/
def envC5 : Env :=
  { debug := false, hasClient := true, preprocess := .ok (),
    ocr := .ok "ab", aiAdvanced := fun _ => .ok okResp77,
    aiStandard := fun _ => .ok okResp77,
    plagFault := none, elapsed := 1 }

/-- Whether a fallible computation returned normally. -/
def isOkB {α : Type} : Except String α → Bool
  | .ok _ => true
  | .error _ => false

/-- The `score` field of a raw AI response is absent or `float`-convertible
(the condition under which `_validate_ai_response` cannot raise). -/
def scoreConvertible (resp : List (String × PyVal)) : Bool :=
  match dictGet resp "score" with
  | none => true
  | some v => isOkB (pyFloat v)

/-- The heuristic formula as the code actually computes it, phrased
independently with finite sets of words (the amended form of the spec's
§4.6 formula): `+30` only above 50 characters, no second length bonus,
overlap scaled by 40 with floor division, flat `+20`, capped at 100. -/
def amended_heuristic_score (recognized_text task_description : String) : ℕ :=
  let task_words := (wordSet task_description).toFinset
  let text_words := (wordSet recognized_text).toFinset
  let overlap := (task_words ∩ text_words).card
  min ((if 50 < recognized_text.length then 30 else 0)
        + 40 * overlap / max task_words.card 1 + 20) 100

/-- Environment for a basic-tier check whose OCR recognizes no text
(spec Scenario A). -/
def envOCREmpty : Env :=
  { debug := false, hasClient := true, preprocess := .ok (),
    ocr := .ok "", aiAdvanced := fun _ => .error "not reached",
    aiStandard := fun _ => .error "not reached",
    plagFault := none, elapsed := 1 }

/-! # Theorems -/

/-! ### Dict lemmas -/

theorem dictGet_dictSet_self (d : List (String × PyVal)) (k : String) (v : PyVal) :
    dictGet (dictSet d k v) k = some v := by
  induction d with
  | nil => simp [dictSet, dictGet]
  | cons hd tl ih =>
      obtain ⟨k0, v0⟩ := hd
      by_cases hk : k0 = k
      · simp [dictSet, hk, dictGet]
      · have hstep : dictSet ((k0, v0) :: tl) k v = (k0, v0) :: dictSet tl k v := by
          simp [dictSet, hk]
        rw [hstep]
        simpa [dictGet, List.find?, show (k0 == k) = false by simpa using hk] using ih

theorem dictGet_dictSet_ne (d : List (String × PyVal)) (k k' : String) (v : PyVal)
    (h : k' ≠ k) : dictGet (dictSet d k v) k' = dictGet d k' := by
  induction d with
  | nil => simp [dictSet, dictGet, List.find?, show (k == k') = false by simpa using Ne.symm h]
  | cons hd tl ih =>
      obtain ⟨k0, v0⟩ := hd
      by_cases hk : k0 = k
      · subst hk
        simp [dictSet, dictGet, List.find?,
          show (k0 == k') = false by simpa using Ne.symm h]
      · have hstep : dictSet ((k0, v0) :: tl) k v = (k0, v0) :: dictSet tl k v := by
          simp [dictSet, hk]
        rw [hstep]
        cases hhd : (k0 == k') with
        | true => simp [dictGet, List.find?, hhd]
        | false => simpa [dictGet, List.find?, hhd] using ih

theorem dictHas_eq_isSome (d : List (String × PyVal)) (k : String) :
    dictHas d k = (dictGet d k).isSome := by
  simp [dictHas, dictGet]

theorem dictHas_dictSet_ne (d : List (String × PyVal)) (k k' : String) (v : PyVal)
    (h : k' ≠ k) : dictHas (dictSet d k v) k' = dictHas d k' := by
  rw [dictHas_eq_isSome, dictHas_eq_isSome, dictGet_dictSet_ne d k k' v h]

/-! ### Ratcliff–Obershelp lemmas -/

theorem leadMatchLen_le_left (xs : List Char) : ∀ ys, leadMatchLen xs ys ≤ xs.length := by
  induction xs with
  | nil => intro ys; cases ys <;> simp [leadMatchLen]
  | cons x xs ih =>
      intro ys
      cases ys with
      | nil => simp [leadMatchLen]
      | cons y ys =>
          by_cases h : x = y
          · simpa [leadMatchLen, h] using Nat.add_le_add_right (ih ys) 1
          · simp [leadMatchLen, h]

theorem leadMatchLen_le_right (xs : List Char) : ∀ ys, leadMatchLen xs ys ≤ ys.length := by
  induction xs with
  | nil => intro ys; cases ys <;> simp [leadMatchLen]
  | cons x xs ih =>
      intro ys
      cases ys with
      | nil => simp [leadMatchLen]
      | cons y ys =>
          by_cases h : x = y
          · simpa [leadMatchLen, h] using Nat.add_le_add_right (ih ys) 1
          · simp [leadMatchLen, h]

theorem leadMatchLen_self (xs : List Char) : leadMatchLen xs xs = xs.length := by
  induction xs with
  | nil => rfl
  | cons x xs ih => simp [leadMatchLen, ih]

theorem leadMatchLen_disjoint (xs ys : List Char) (h : ∀ c ∈ xs, c ∉ ys) :
    leadMatchLen xs ys = 0 := by
  cases xs with
  | nil => cases ys <;> rfl
  | cons x xs =>
      cases ys with
      | nil => rfl
      | cons y ys =>
          have hx : x ∉ y :: ys := h x (List.mem_cons_self x xs)
          have hxy : x ≠ y := by
            intro he
            exact hx (he ▸ List.mem_cons_self y ys)
          simp [leadMatchLen, hxy]

/-- Generic foldl invariant preservation. -/
theorem foldl_inv {α β : Type} {P : β → Prop} (f : β → α → β) :
    ∀ (l : List α), (∀ b x, x ∈ l → P b → P (f b x)) → ∀ b, P b → P (l.foldl f b) := by
  intro l
  induction l with
  | nil => intro _ b hb; exact hb
  | cons x xs ih =>
      intro h b hb
      exact ih (fun b' y hy => h b' y (List.mem_cons_of_mem x hy)) (f b x)
        (h b x (List.mem_cons_self x xs) hb)

theorem lmStep_snd_le (a b : List Char) (i : ℕ) (best : ℕ × ℕ × ℕ) (j : ℕ) :
    best.2.2 ≤ (lmStep a b i best j).2.2 := by
  simp only [lmStep]
  split
  · next h => exact le_of_lt h
  · exact le_refl _

theorem foldl_lmStep_snd_le (a b : List Char) (i : ℕ) (l : List ℕ) :
    ∀ best : ℕ × ℕ × ℕ, best.2.2 ≤ (l.foldl (lmStep a b i) best).2.2 := by
  induction l with
  | nil => intro best; exact le_refl _
  | cons j js ih =>
      intro best
      exact le_trans (lmStep_snd_le a b i best j) (ih (lmStep a b i best j))

theorem lmRow_snd_le (a b : List Char) (best : ℕ × ℕ × ℕ) (i : ℕ) :
    best.2.2 ≤ (lmRow a b best i).2.2 :=
  foldl_lmStep_snd_le a b i _ best

theorem foldl_lmRow_snd_le (a b : List Char) (l : List ℕ) :
    ∀ best : ℕ × ℕ × ℕ, best.2.2 ≤ (l.foldl (lmRow a b) best).2.2 := by
  induction l with
  | nil => intro best; exact le_refl _
  | cons i is ih =>
      intro best
      exact le_trans (lmRow_snd_le a b best i) (ih (lmRow a b best i))

theorem longestMatch_inv (a b : List Char) :
    (longestMatch a b).1 + (longestMatch a b).2.2 ≤ a.length ∧
      (longestMatch a b).2.1 + (longestMatch a b).2.2 ≤ b.length := by
  unfold longestMatch
  apply foldl_inv (P := fun t : ℕ × ℕ × ℕ =>
    t.1 + t.2.2 ≤ a.length ∧ t.2.1 + t.2.2 ≤ b.length)
  · intro best i hi hbest
    have hia : i ≤ a.length := by
      have := List.mem_range.mp hi
      omega
    unfold lmRow
    apply foldl_inv (P := fun t : ℕ × ℕ × ℕ =>
      t.1 + t.2.2 ≤ a.length ∧ t.2.1 + t.2.2 ≤ b.length)
    · intro best' j hj hbest'
      have hjb : j ≤ b.length := by
        have := List.mem_range.mp hj
        omega
      simp only [lmStep]
      split
      · constructor
        · have h1 : leadMatchLen (a.drop i) (b.drop j) ≤ a.length - i := by
            simpa [List.length_drop] using leadMatchLen_le_left (a.drop i) (b.drop j)
          simpa using by omega
        · have h2 : leadMatchLen (a.drop i) (b.drop j) ≤ b.length - j := by
            simpa [List.length_drop] using leadMatchLen_le_right (a.drop i) (b.drop j)
          simpa using by omega
      · exact hbest'
    · exact hbest
  · exact ⟨by simp, by simp⟩

theorem longestMatch_self_size_ge (a : List Char) :
    a.length ≤ (longestMatch a a).2.2 := by
  by_cases hn : a.length = 0
  · simp [hn]
  · unfold longestMatch
    rw [List.range_succ_eq_map, List.foldl_cons]
    refine le_trans ?_ (foldl_lmRow_snd_le a a _ _)
    unfold lmRow
    rw [List.range_succ_eq_map, List.foldl_cons]
    refine le_trans ?_ (foldl_lmStep_snd_le a a 0 _ _)
    simp only [lmStep, List.drop_zero, leadMatchLen_self]
    rw [if_pos (by omega)]

theorem longestMatch_self (a : List Char) : longestMatch a a = (0, 0, a.length) := by
  have hinv := longestMatch_inv a a
  have hge := longestMatch_self_size_ge a
  rcases h : longestMatch a a with ⟨i, j, k⟩
  rw [h] at hinv hge
  simp only at hinv hge
  have hi : i = 0 := by omega
  have hj : j = 0 := by omega
  have hk : k = a.length := by omega
  simp [hi, hj, hk]

theorem longestMatch_disjoint (a b : List Char) (h : ∀ c ∈ a, c ∉ b) :
    (longestMatch a b).2.2 = 0 := by
  unfold longestMatch
  apply foldl_inv (P := fun t : ℕ × ℕ × ℕ => t.2.2 = 0)
  · intro best i _ hbest
    unfold lmRow
    apply foldl_inv (P := fun t : ℕ × ℕ × ℕ => t.2.2 = 0)
    · intro best' j _ hbest'
      have hz : leadMatchLen (a.drop i) (b.drop j) = 0 := by
        apply leadMatchLen_disjoint
        intro c hc hcb
        exact h c (List.drop_subset i a hc) (List.drop_subset j b hcb)
      simp only [lmStep, hz]
      rw [if_neg (by omega)]
      exact hbest'
    · exact hbest
  · rfl

theorem tmF_of_size_zero (fuel : ℕ) (a b : List Char)
    (hlm : (longestMatch a b).2.2 = 0) : tmF fuel a b = 0 := by
  cases fuel with
  | zero => rfl
  | succ f => simp [tmF, hlm]

theorem tmF_nil_nil (fuel : ℕ) : tmF fuel [] [] = 0 :=
  tmF_of_size_zero fuel [] [] (longestMatch_disjoint [] [] (by simp))

theorem tmF_succ_self (f : ℕ) (a : List Char) : tmF (f + 1) a a = a.length := by
  by_cases hn : a.length = 0
  · have hz : (longestMatch a a).2.2 = 0 := by rw [longestMatch_self]; simpa using hn
    rw [tmF_of_size_zero (f + 1) a a hz, hn]
  · simp only [tmF, longestMatch_self]
    rw [if_neg hn]
    simp [List.drop_length, tmF_nil_nil]

theorem totalMatches_self (a : List Char) : totalMatches a a = a.length := by
  unfold totalMatches
  cases a with
  | nil => rfl
  | cons x xs =>
      have hlen : (x :: xs).length + (x :: xs).length = (xs.length + (x :: xs).length) + 1 := by
        simp [List.length_cons]
        omega
      rw [hlen, tmF_succ_self]

theorem tmF_le (fuel : ℕ) : ∀ a b : List Char, 2 * tmF fuel a b ≤ a.length + b.length := by
  induction fuel with
  | zero => intro a b; simp [tmF]
  | succ f ih =>
      intro a b
      have hinv := longestMatch_inv a b
      rcases hm : longestMatch a b with ⟨i, j, k⟩
      rw [hm] at hinv
      simp only at hinv
      simp only [tmF, hm]
      by_cases hk : k = 0
      · simp [hk]
      · rw [if_neg hk]
        have h1 := ih (a.take i) (b.take j)
        have h2 := ih (a.drop (i + k)) (b.drop (j + k))
        simp only [List.length_take, List.length_drop] at h1 h2
        omega

theorem tmF_disjoint (fuel : ℕ) (a b : List Char) (h : ∀ c ∈ a, c ∉ b) :
    tmF fuel a b = 0 :=
  tmF_of_size_zero fuel a b (longestMatch_disjoint a b h)

theorem ratcliffRatio_self (a : List Char) : ratcliffRatio a a = 1 := by
  unfold ratcliffRatio
  by_cases h : a.length + a.length = 0
  · simp [h]
  · rw [if_neg h, totalMatches_self]
    have hn : (a.length : ℚ) ≠ 0 := by
      have : a.length ≠ 0 := by omega
      exact_mod_cast this
    field_simp
    ring

theorem ratcliffRatio_nonneg (a b : List Char) : 0 ≤ ratcliffRatio a b := by
  unfold ratcliffRatio
  by_cases h : a.length + b.length = 0
  · simp [h]
  · rw [if_neg h]
    positivity

theorem ratcliffRatio_le_one (a b : List Char) : ratcliffRatio a b ≤ 1 := by
  unfold ratcliffRatio
  by_cases h : a.length + b.length = 0
  · simp [h]
  · rw [if_neg h]
    have hpos : (0 : ℚ) < (a.length : ℚ) + (b.length : ℚ) := by
      have hp : 0 < a.length + b.length := Nat.pos_of_ne_zero h
      exact_mod_cast hp
    rw [div_le_one hpos]
    have := tmF_le (a.length + b.length) a b
    unfold totalMatches
    exact_mod_cast this

theorem ratcliffRatio_disjoint (a b : List Char) (h : ∀ c ∈ a, c ∉ b)
    (hne : a.length + b.length ≠ 0) : ratcliffRatio a b = 0 := by
  unfold ratcliffRatio
  rw [if_neg hne]
  unfold totalMatches
  rw [tmF_disjoint _ a b h]
  simp

theorem calculate_similarity_self (t : String) : calculate_similarity t t = 1 :=
  ratcliffRatio_self t.toList

theorem calculate_similarity_nonneg (t w : String) : 0 ≤ calculate_similarity t w :=
  ratcliffRatio_nonneg t.toList w.toList

theorem calculate_similarity_le_one (t w : String) : calculate_similarity t w ≤ 1 :=
  ratcliffRatio_le_one t.toList w.toList

/-! ### Validator lemmas -/

theorem isOkB_iff {α : Type} (x : Except String α) :
    isOkB x = true ↔ ∃ a, x = .ok a := by
  cases x <;> simp [isOkB]

theorem ensureField_get_ne (d : List (String × PyVal)) (k k' : String) (v : PyVal)
    (h : k' ≠ k) : dictGet (ensureField d k v) k' = dictGet d k' := by
  unfold ensureField
  by_cases hh : dictHas d k
  · simp [hh]
  · simp only [hh]
    rw [if_neg (by simp)]
    exact dictGet_dictSet_ne d k k' v h

theorem dictHas_ensureField_ne (d : List (String × PyVal)) (k k' : String) (v : PyVal)
    (h : k' ≠ k) : dictHas (ensureField d k v) k' = dictHas d k' := by
  rw [dictHas_eq_isSome, dictHas_eq_isSome, ensureField_get_ne d k k' v h]

theorem ensureField_get_self (d : List (String × PyVal)) (k : String) (v : PyVal) :
    dictGet (ensureField d k v) k = some ((dictGet d k).getD v) := by
  unfold ensureField
  by_cases hh : dictHas d k
  · rw [dictHas_eq_isSome] at hh
    cases hg : dictGet d k with
    | none => rw [hg] at hh; simp at hh
    | some w => simp [dictHas_eq_isSome, hg]
  · rw [dictHas_eq_isSome] at hh
    cases hg : dictGet d k with
    | none =>
        simp only [dictHas_eq_isSome, hg]
        rw [if_neg (by simp)]
        simp [dictGet_dictSet_self]
    | some w => rw [hg] at hh; simp at hh

theorem ensureField_get_missing (d : List (String × PyVal)) (k : String) (v : PyVal)
    (h : dictHas d k = false) : dictGet (ensureField d k v) k = some v := by
  rw [ensureField_get_self]
  rw [dictHas_eq_isSome] at h
  cases hg : dictGet d k with
  | none => simp
  | some w => rw [hg] at h; simp at h

theorem validate_ai_response_spec (resp : List (String × PyVal))
    (h : scoreConvertible resp = true) :
    ∃ r, validate_ai_response resp = .ok r ∧
      (∃ q : ℚ, dictGet r "score" = some (numV q) ∧ 0 ≤ q ∧ q ≤ 100) ∧
      (dictHas resp "score" = false → dictGet r "score" = some (numV 50)) ∧
      (dictHas resp "feedback" = false →
        dictGet r "feedback" =
          some (strV "Не удалось полностью проанализировать работу")) ∧
      (dictHas resp "detailed_analysis" = false →
        dictGet r "detailed_analysis" = some (dictV [])) ∧
      (dictGet r "confidence" = dictGet resp "confidence" ∨
        (dictGet resp "confidence" = none ∧
          dictGet r "confidence" = some (numV (4/5)))) ∧
      (dictHas resp "suggestions" = false → dictGet r "suggestions" = some (arrV [])) := by
  simp only [validate_ai_response]
  set r1 := ensureField resp "score" (get_default_value "score") with hr1
  set r2 := ensureField r1 "feedback" (get_default_value "feedback") with hr2
  set r3 := ensureField r2 "detailed_analysis" (get_default_value "detailed_analysis")
    with hr3
  have hg3 : dictGet r3 "score" = some ((dictGet resp "score").getD (numV 50)) := by
    rw [hr3, ensureField_get_ne _ _ _ _ (by decide), hr2,
      ensureField_get_ne _ _ _ _ (by decide), hr1, ensureField_get_self]
    rfl
  have hok : ∃ q0 : ℚ, pyFloat ((dictGet r3 "score").getD (numV 0)) = .ok q0 ∧
      (dictHas resp "score" = false → q0 = 50) := by
    rw [hg3]
    unfold scoreConvertible at h
    cases hgs : dictGet resp "score" with
    | none =>
        refine ⟨50, by simp [pyFloat], fun _ => rfl⟩
    | some v =>
        rw [hgs] at h
        obtain ⟨q0, hq0⟩ := (isOkB_iff (pyFloat v)).mp h
        refine ⟨q0, by simpa using hq0, ?_⟩
        intro hmiss
        rw [dictHas_eq_isSome, hgs] at hmiss
        simp at hmiss
  obtain ⟨q0, hq0, hq0miss⟩ := hok
  rw [hq0]
  set r4 := dictSet r3 "score" (numV (max 0 (min 100 q0))) with hr4
  set r5 := ensureField r4 "confidence" (numV (4/5)) with hr5
  set r6 := ensureField r5 "suggestions" (arrV []) with hr6
  refine ⟨r6, rfl, ?_, ?_, ?_, ?_, ?_, ?_⟩
  · -- clamped score
    refine ⟨max 0 (min 100 q0), ?_, le_max_left _ _, ?_⟩
    · rw [hr6, ensureField_get_ne _ _ _ _ (by decide), hr5,
        ensureField_get_ne _ _ _ _ (by decide), hr4, dictGet_dictSet_self]
    · exact max_le (by norm_num) (min_le_left _ _)
  · -- missing score defaults to 50 (clamp of 50 is 50)
    intro hmiss
    rw [hr6, ensureField_get_ne _ _ _ _ (by decide), hr5,
      ensureField_get_ne _ _ _ _ (by decide), hr4, dictGet_dictSet_self,
      hq0miss hmiss]
    norm_num
  · -- missing feedback gets the default string
    intro hmiss
    have hm1 : dictHas r1 "feedback" = false := by
      rw [hr1, dictHas_ensureField_ne _ _ _ _ (by decide)]
      exact hmiss
    rw [hr6, ensureField_get_ne _ _ _ _ (by decide), hr5,
      ensureField_get_ne _ _ _ _ (by decide), hr4,
      dictGet_dictSet_ne _ _ _ _ (by decide), hr3,
      ensureField_get_ne _ _ _ _ (by decide), hr2,
      ensureField_get_missing _ _ _ hm1]
    rfl
  · -- missing detailed_analysis gets {}
    intro hmiss
    have hm2 : dictHas r2 "detailed_analysis" = false := by
      rw [hr2, dictHas_ensureField_ne _ _ _ _ (by decide), hr1,
        dictHas_ensureField_ne _ _ _ _ (by decide)]
      exact hmiss
    rw [hr6, ensureField_get_ne _ _ _ _ (by decide), hr5,
      ensureField_get_ne _ _ _ _ (by decide), hr4,
      dictGet_dictSet_ne _ _ _ _ (by decide), hr3,
      ensureField_get_missing _ _ _ hm2]
    rfl
  · -- confidence: preserved, or defaulted to 0.8 when absent
    have hc4 : dictGet r4 "confidence" = dictGet resp "confidence" := by
      rw [hr4, dictGet_dictSet_ne _ _ _ _ (by decide), hr3,
        ensureField_get_ne _ _ _ _ (by decide), hr2,
        ensureField_get_ne _ _ _ _ (by decide), hr1,
        ensureField_get_ne _ _ _ _ (by decide)]
    by_cases hc : dictHas r4 "confidence"
    · left
      rw [hr6, ensureField_get_ne _ _ _ _ (by decide), hr5]
      unfold ensureField
      rw [if_pos hc]
      exact hc4
    · right
      have hnone : dictGet resp "confidence" = none := by
        rw [dictHas_eq_isSome, hc4] at hc
        cases hg : dictGet resp "confidence" with
        | none => rfl
        | some w => rw [hg] at hc; simp at hc
      refine ⟨hnone, ?_⟩
      rw [hr6, ensureField_get_ne _ _ _ _ (by decide), hr5,
        ensureField_get_missing _ _ _ (by simpa using hc)]
  · -- missing suggestions gets []
    intro hmiss
    have hm5 : dictHas r5 "suggestions" = false := by
      rw [hr5, dictHas_ensureField_ne _ _ _ _ (by decide), hr4,
        dictHas_eq_isSome, dictGet_dictSet_ne _ _ _ _ (by decide), hr3,
        ensureField_get_ne _ _ _ _ (by decide), hr2,
        ensureField_get_ne _ _ _ _ (by decide), hr1,
        ensureField_get_ne _ _ _ _ (by decide), ← dictHas_eq_isSome]
      exact hmiss
    rw [hr6, ensureField_get_missing _ _ _ hm5]

/-! ### Plagiarism lemmas -/

theorem foldl_max_le (f : String → ℚ) (c : ℚ) :
    ∀ (l : List String) (m : ℚ), m ≤ c → (∀ w ∈ l, f w ≤ c) →
      l.foldl (fun acc w => max acc (f w)) m ≤ c := by
  intro l
  induction l with
  | nil => intro m hm _; exact hm
  | cons x xs ih =>
      intro m hm h
      exact ih (max m (f x)) (max_le hm (h x (List.mem_cons_self x xs)))
        (fun w hw => h w (List.mem_cons_of_mem x hw))

theorem le_foldl_max_init (f : String → ℚ) :
    ∀ (l : List String) (m : ℚ), m ≤ l.foldl (fun acc w => max acc (f w)) m := by
  intro l
  induction l with
  | nil => intro m; exact le_refl m
  | cons x xs ih =>
      intro m
      exact le_trans (le_max_left m (f x)) (ih (max m (f x)))

theorem le_foldl_max_mem (f : String → ℚ) :
    ∀ (l : List String) (m : ℚ) (w : String), w ∈ l →
      f w ≤ l.foldl (fun acc w => max acc (f w)) m := by
  intro l
  induction l with
  | nil => intro m w hw; simp at hw
  | cons x xs ih =>
      intro m w hw
      rcases List.mem_cons.mp hw with hx | hxs
      · subst hx
        exact le_trans (le_max_right m (f w)) (le_foldl_max_init f xs (max m (f w)))
      · exact ih (max m (f x)) w hxs

theorem find_append_of_all_fail (uid : ℕ) (e : ℕ × List String) :
    ∀ l : List (ℕ × List String), l.any (fun p => p.1 == uid) = false →
      (l ++ [e]).find? (fun p => p.1 == uid) = [e].find? (fun p => p.1 == uid) := by
  intro l
  induction l with
  | nil => intro _; rfl
  | cons hd tl ih =>
      intro h
      simp only [List.any_cons, Bool.or_eq_false_iff] at h
      simp only [List.cons_append, List.find?, h.1]
      exact ih h.2

theorem find_map_replace (uid : ℕ) (text : String) :
    ∀ l : List (ℕ × List String), l.any (fun p => p.1 == uid) = true →
      ((l.map (fun p => if p.1 == uid then (p.1, text :: p.2) else p)).find?
          (fun p => p.1 == uid)).map (·.2) =
        some (text :: (((l.find? (fun p => p.1 == uid)).map (·.2)).getD [])) := by
  intro l
  induction l with
  | nil => intro h; simp at h
  | cons hd tl ih =>
      intro h
      cases hhd : (hd.1 == uid) with
      | true =>
          simp only [List.map_cons, hhd, if_pos rfl, List.find?, hhd]
          simp [List.find?, hhd]
      | false =>
          have htl : tl.any (fun p => p.1 == uid) = true := by
            simp only [List.any_cons, hhd, Bool.false_or] at h
            exact h
          simp only [List.map_cons, hhd, List.find?]
          rw [if_neg (by simp [hhd])]
          simp only [List.find?, hhd]
          exact ih htl

theorem worksFor_pushWork_self (store : Store) (uid : ℕ) (text : String) :
    worksFor (pushWork store uid text) uid = text :: worksFor store uid := by
  unfold pushWork worksFor
  cases hany : store.works.any (fun p => p.1 == uid) with
  | true =>
      simp only [hany, if_pos]
      rw [find_map_replace uid text store.works hany]
      rfl
  | false =>
      rw [if_neg (by simp)]
      rw [find_append_of_all_fail uid (uid, [text]) store.works hany]
      have hn : (store.works.find? (fun p => p.1 == uid)) = none := by
        rw [List.find?_eq_none]
        intro p hp
        obtain ⟨a, b⟩ := p
        have hne : ∀ (a : ℕ) (b : List String), (a, b) ∈ store.works → ¬a = uid := by
          simpa using hany
        simpa using hne a b hp
      simp [List.find?, hn]

/-! ### Cache-serialization lemmas -/

theorem jsonSerializable_resultToDict (r : CheckingResult) :
    jsonSerializable (resultToDict r) = false := by
  simp [resultToDict, jsonSerializable, Bool.and_false]

theorem cache_set_result_fails (store : Store) (key : String) (r : CheckingResult) :
    cache_set store key (resultToDict r) = (store, false) := by
  simp [cache_set, jsonSerializable_resultToDict]

/-! ### Heuristic-scorer lemmas -/

theorem scoreOfDict_basic_analysis (t d : String) :
    scoreOfDict (basic_analysis t d) =
      ((min ((if 50 < t.length then 30 else 0)
          + 40 * ((wordSet d).filter (fun w => (wordSet t).contains w)).length
              / (max (wordSet d).length 1) + 20) 100 : ℕ) : ℚ) := rfl

theorem basic_analysis_confidence (t d : String) :
    dictGet (basic_analysis t d) "confidence" = some (numV (1/2)) := rfl

theorem basic_analysis_no_plagiarism (t d : String) :
    dictGet (basic_analysis t d) "plagiarism_score" = none := rfl

theorem basic_analysis_score_bounds (t d : String) :
    20 ≤ scoreOfDict (basic_analysis t d) ∧ scoreOfDict (basic_analysis t d) ≤ 90 := by
  rw [scoreOfDict_basic_analysis]
  set c := ((wordSet d).filter (fun w => (wordSet t).contains w)).length with hc
  set dn := max (wordSet d).length 1 with hdn
  have hdnpos : 0 < dn := lt_of_lt_of_le one_pos (le_max_right _ 1)
  have hcle : c ≤ dn := le_trans (by rw [hc]; exact List.length_filter_le _ _)
    (le_max_left _ 1)
  have hrel : 40 * c / dn ≤ 40 := by
    calc 40 * c / dn ≤ 40 * dn / dn :=
          Nat.div_le_div_right (Nat.mul_le_mul_left 40 hcle)
      _ = 40 := Nat.mul_div_cancel 40 hdnpos
  constructor
  · have : 20 ≤ min ((if 50 < t.length then 30 else 0) + 40 * c / dn + 20) 100 :=
      le_min (Nat.le_add_left 20 _) (by norm_num)
    exact_mod_cast this
  · have : min ((if 50 < t.length then 30 else 0) + 40 * c / dn + 20) 100 ≤ 90 := by
      refine le_trans (min_le_left _ _) ?_
      by_cases ht : 50 < t.length <;> simp [ht] <;> omega
    exact_mod_cast this

/-! ### Validator inversion lemmas -/

theorem scoreConvertible_of_ok (resp r : List (String × PyVal))
    (h : validate_ai_response resp = .ok r) : scoreConvertible resp = true := by
  simp only [validate_ai_response] at h
  have hg3 : dictGet (ensureField (ensureField (ensureField resp "score"
      (get_default_value "score")) "feedback" (get_default_value "feedback"))
      "detailed_analysis" (get_default_value "detailed_analysis")) "score" =
      some ((dictGet resp "score").getD (numV 50)) := by
    rw [ensureField_get_ne _ _ _ _ (by decide), ensureField_get_ne _ _ _ _ (by decide),
      ensureField_get_self]
    rfl
  rw [hg3] at h
  simp only [Option.getD_some] at h
  cases hgs : dictGet resp "score" with
  | none => simp [scoreConvertible, hgs]
  | some v =>
      rw [hgs] at h
      simp only [Option.getD_some] at h
      cases hpf : pyFloat v with
      | error e => rw [hpf] at h; simp at h
      | ok q => simp [scoreConvertible, hgs, isOkB, hpf]

theorem validate_ai_response_ok_inv (resp r : List (String × PyVal))
    (h : validate_ai_response resp = .ok r) :
    (∃ q : ℚ, dictGet r "score" = some (numV q) ∧ 0 ≤ q ∧ q ≤ 100) ∧
      (dictGet r "confidence" = dictGet resp "confidence" ∨
        (dictGet resp "confidence" = none ∧
          dictGet r "confidence" = some (numV (4/5)))) := by
  obtain ⟨r', heq, hscore, _, _, _, hconf, _⟩ :=
    validate_ai_response_spec resp (scoreConvertible_of_ok resp r h)
  rw [h] at heq
  have hr : r' = r := by
    injection heq.symm
  subst hr
  exact ⟨hscore, hconf⟩

/-! ### `_advanced_analysis` inversion -/

theorem advanced_attempt_ok_inv (env : Env) (n : ℕ) (r : List (String × PyVal))
    (h : advanced_attempt env n = .ok r) :
    ∃ resp, env.aiAdvanced n = .ok resp ∧ validate_ai_response resp = .ok r := by
  unfold advanced_attempt at h
  cases hn : env.aiAdvanced n with
  | error e => rw [hn] at h; simp at h
  | ok resp => rw [hn] at h; exact ⟨resp, rfl, h⟩

theorem advanced_analysis_ok_inv (env : Env) (r : List (String × PyVal))
    (h : advanced_analysis env = .ok r) :
    ∃ n resp, env.aiAdvanced n = .ok resp ∧ validate_ai_response resp = .ok r := by
  unfold advanced_analysis at h
  cases h1 : advanced_attempt env 1 with
  | ok rr =>
      rw [h1] at h
      simp only at h
      obtain ⟨resp, hai, hv⟩ := advanced_attempt_ok_inv env 1 rr h1
      exact ⟨1, resp, hai, by rw [hv, h]⟩
  | error e1 =>
      rw [h1] at h
      simp only at h
      cases h2 : advanced_attempt env 2 with
      | ok rr =>
          rw [h2] at h
          simp only at h
          obtain ⟨resp, hai, hv⟩ := advanced_attempt_ok_inv env 2 rr h2
          exact ⟨2, resp, hai, by rw [hv, h]⟩
      | error e2 =>
          rw [h2] at h
          simp only at h
          obtain ⟨resp, hai, hv⟩ := advanced_attempt_ok_inv env 3 r h
          exact ⟨3, resp, hai, hv⟩

theorem advanced_analysis_all_fail (env : Env) (e1 e2 e3 : String)
    (h1 : env.aiAdvanced 1 = .error e1) (h2 : env.aiAdvanced 2 = .error e2)
    (h3 : env.aiAdvanced 3 = .error e3) :
    advanced_analysis env = .error e3 := by
  unfold advanced_analysis advanced_attempt
  rw [h1, h2, h3]

theorem advanced_analysis_third_try (env : Env) (e1 e2 : String)
    (resp : List (String × PyVal))
    (h1 : env.aiAdvanced 1 = .error e1) (h2 : env.aiAdvanced 2 = .error e2)
    (h3 : env.aiAdvanced 3 = .ok resp) :
    advanced_analysis env = validate_ai_response resp := by
  unfold advanced_analysis advanced_attempt
  rw [h1, h2, h3]

/-! ### Orchestrator lemmas -/

theorem check_photo_submission_miss (env : Env) (store : Store)
    (photo_head task_description task_type checking_criteria : String)
    (user_id : ℕ) (quality : CheckingQuality)
    (hmiss : dictGet store.checks
      ("check:" ++ generate_cache_key photo_head task_description) = none) :
    check_photo_submission env store photo_head task_description task_type
        checking_criteria user_id quality =
      computed_check env store
        ("check:" ++ generate_cache_key photo_head task_description)
        task_description task_type checking_criteria user_id quality := by
  simp only [check_photo_submission, cache_get_check]
  rw [hmiss]

theorem pushWork_checks (store : Store) (uid : ℕ) (text : String) :
    (pushWork store uid text).checks = store.checks := by
  unfold pushWork
  split <;> rfl

theorem run_pipeline_checks (env : Env) (store : Store)
    (td tt cr : String) (uid : ℕ) (q : CheckingQuality)
    (out : String × List (String × PyVal) × Store)
    (h : run_pipeline env store td tt cr uid q = .ok out) :
    out.2.2.checks = store.checks := by
  unfold run_pipeline at h
  cases hp : env.preprocess with
  | error e => rw [hp] at h; simp at h
  | ok u =>
      rw [hp] at h
      cases ho : env.ocr with
      | error e => rw [ho] at h; simp at h
      | ok text =>
          rw [ho] at h
          cases q with
          | basic => simp only at h; rw [← Except.ok.inj h]
          | standard => simp only at h; rw [← Except.ok.inj h]
          | advanced =>
              simp only at h
              cases ha : advanced_analysis env with
              | error e => rw [ha] at h; simp at h
              | ok rr => rw [ha] at h; rw [← Except.ok.inj h]
          | premium =>
              simp only at h
              cases ha : advanced_analysis env with
              | error e => rw [ha] at h; simp at h
              | ok rr =>
                  rw [ha] at h
                  cases hpf : env.plagFault with
                  | some e => rw [hpf] at h; simp at h
                  | none =>
                      rw [hpf] at h
                      simp only at h
                      rw [← Except.ok.inj h]
                      exact pushWork_checks store uid text

/-! ### Claim theorems -/

/-- C1: for every input and any exception raised by a pipeline stage
(preprocessing, OCR, AI call, plagiarism check; the cache accessors catch
their own exceptions), `check_photo_submission` returns a `CheckingResult`
rather than propagating, and when an exception was caught the result has
status "failed", score 0, an explanatory feedback string naming the error,
and the retry-with-a-clearer-photo suggestion. -/
theorem c1_failure_containment (env : Env) (store : Store)
    (photo_head task_description task_type checking_criteria : String)
    (user_id : ℕ) (quality : CheckingQuality)
    (hmiss : dictGet store.checks
      ("check:" ++ generate_cache_key photo_head task_description) = none) :
    ∃ r store', check_photo_submission env store photo_head task_description
        task_type checking_criteria user_id quality = .ok (r, store') ∧
      ∀ e, run_pipeline env store task_description task_type checking_criteria
          user_id quality = .error e →
        r.status = "failed" ∧ r.score = 0 ∧
        r.feedback = strV ("Ошибка при проверке: " ++ e) ∧
        r.suggestions = arrV [strV "Попробуйте загрузить более четкое фото"] := by
  rw [check_photo_submission_miss env store _ _ _ _ _ _ hmiss]
  unfold computed_check
  cases hrp : run_pipeline env store task_description task_type checking_criteria
      user_id quality with
  | ok out =>
      obtain ⟨text, dict, store1⟩ := out
      refine ⟨_, _, rfl, ?_⟩
      intro e he
      cases he
  | error e0 =>
      refine ⟨_, _, rfl, ?_⟩
      intro e he
      have he0 : e0 = e := by injection he
      subst he0
      exact ⟨rfl, rfl, rfl, rfl⟩

/-- C1 witness: with preprocessing raising `cv2.error` on a fresh store,
the orchestrator still returns, with the failed-result shape. -/
theorem c1_failure_containment_witness :
    ∃ r store', check_photo_submission envPreprocessFail emptyStore "p" "t" "tt"
        "cr" 7 .standard = .ok (r, store') ∧ r.status = "failed" ∧ r.score = 0 := by
  obtain ⟨r, store', hok, himp⟩ := c1_failure_containment envPreprocessFail
    emptyStore "p" "t" "tt" "cr" 7 .standard (by rfl)
  have hf := himp "cv2.error: empty image" (by rfl)
  exact ⟨r, store', hok, hf.1, hf.2.1⟩

/-- C10: the heuristic scorer's score always lies in `[20, 90]`: the flat
participation bonus guarantees 20, and the rule contributions sum to at
most 30 + 40 + 20 = 90. -/
theorem c10_heuristic_score_range (recognized_text task_description : String) :
    20 ≤ scoreOfDict (basic_analysis recognized_text task_description) ∧
      scoreOfDict (basic_analysis recognized_text task_description) ≤ 90 :=
  basic_analysis_score_bounds recognized_text task_description

/-- C9 counterexample: on the basic tier with empty recognized text, the
returned feedback is exactly the "too short"/"weakly related" pair of
lines; it contains no occurrence of the recognition word "распознан", so
the claimed "unrecognized text" marker is not in the feedback. -/
theorem c9_counterexample :
    (resultOf (check_photo_submission envOCREmpty emptyStore "p"
        "Solve x²−5x+6=0" "algebra" "cr" 7 .basic)).map fbStr =
      some "❌ Работа слишком короткая\n⚠️ Работа слабо связана с заданием" ∧
    containsMarker
      "❌ Работа слишком короткая\n⚠️ Работа слабо связана с заданием"
      "распознан" = false := by
  exact ⟨by decide, by decide⟩

/-- C9 (amended): on the basic tier with empty recognized text the score
is exactly 20 (participation only); the indication that no text was
recognized lives in `detailed_analysis` (`текст_распознан = false`), while
the feedback carries the "work too short" marker. -/
theorem c9_basic_empty_text :
    (resultOf (check_photo_submission envOCREmpty emptyStore "p"
        "Solve x²−5x+6=0" "algebra" "cr" 7 .basic)).map (fun r => r.score) =
      some 20 ∧
    (resultOf (check_photo_submission envOCREmpty emptyStore "p"
        "Solve x²−5x+6=0" "algebra" "cr" 7 .basic)).map
        (fun r => detailBool r "текст_распознан") = some (some false) ∧
    (resultOf (check_photo_submission envOCREmpty emptyStore "p"
        "Solve x²−5x+6=0" "algebra" "cr" 7 .basic)).map
        (fun r => containsMarker (fbStr r) "слишком короткая") = some true := by
  exact ⟨by decide, by decide, by decide⟩

/-- C4 counterexample: for a 30-character recognized text with no lexical
overlap, the code's heuristic gives 20 (the 30-point length bonus requires
more than 50 characters) while the spec's formula gives 50 (its bonus
requires only more than 20 characters); the two formulas disagree. -/
theorem c4_counterexample :
    scoreOfDict (basic_analysis "aaaaaaaaaaaaaaaaaaaaaaaaaaaaaa" "xyz") = 20 ∧
    spec_heuristic_score "aaaaaaaaaaaaaaaaaaaaaaaaaaaaaa" "xyz" 40 = 50 ∧
    scoreOfDict (basic_analysis "aaaaaaaaaaaaaaaaaaaaaaaaaaaaaa" "xyz") ≠
      ((spec_heuristic_score "aaaaaaaaaaaaaaaaaaaaaaaaaaaaaa" "xyz" 40 : ℕ) : ℚ) := by
  exact ⟨by decide, by decide, by decide⟩

/-- C3 counterexample: at the advanced tier with all three AI attempts
failing, the returned result has status "failed" with score 0 — there is
no heuristic fallback and the status is not "checked". -/
theorem c3_counterexample :
    (resultOf (check_photo_submission envAdvFailAll emptyStore "p" "t" "tt"
        "cr" 7 .advanced)).map (fun r => (r.status, r.score)) =
      some ("failed", 0) ∧ ("failed" : String) ≠ "checked" := by
  exact ⟨by decide, by decide⟩

/-- C3 (amended): on a cache miss at the advanced or premium tier, when
the AI call fails on all 3 retry attempts the exhausted `RetryError`
reaches the top-level handler: the result has status "failed" and score 0
(the heuristic fallback exists only inside `_standard_analysis`). -/
theorem c3_advanced_exhausted_retries_fail (env : Env) (store : Store)
    (photo_head task_description task_type checking_criteria : String)
    (user_id : ℕ) (quality : CheckingQuality) (text e1 e2 e3 : String)
    (hq : quality = .advanced ∨ quality = .premium)
    (hmiss : dictGet store.checks
      ("check:" ++ generate_cache_key photo_head task_description) = none)
    (hpre : env.preprocess = .ok ()) (hocr : env.ocr = .ok text)
    (h1 : env.aiAdvanced 1 = .error e1) (h2 : env.aiAdvanced 2 = .error e2)
    (h3 : env.aiAdvanced 3 = .error e3) :
    ∃ r store', check_photo_submission env store photo_head task_description
        task_type checking_criteria user_id quality = .ok (r, store') ∧
      r.status = "failed" ∧ r.score = 0 ∧
      r.feedback = strV ("Ошибка при проверке: " ++ e3) := by
  rw [check_photo_submission_miss env store _ _ _ _ _ _ hmiss]
  unfold computed_check
  have hadv := advanced_analysis_all_fail env e1 e2 e3 h1 h2 h3
  rcases hq with rfl | rfl
  · have hrp : run_pipeline env store task_description task_type
        checking_criteria user_id .advanced = .error e3 := by
      unfold run_pipeline
      rw [hpre, hocr, hadv]
    rw [hrp]
    exact ⟨_, _, rfl, rfl, rfl, rfl⟩
  · have hrp : run_pipeline env store task_description task_type
        checking_criteria user_id .premium = .error e3 := by
      unfold run_pipeline
      rw [hpre, hocr, hadv]
    rw [hrp]
    exact ⟨_, _, rfl, rfl, rfl, rfl⟩

/-- C3 witness: the amended theorem applied to the concrete
all-attempts-fail environment at the premium tier. -/
theorem c3_witness :
    ∃ r store', check_photo_submission envAdvFailAll emptyStore "p" "t" "tt"
        "cr" 7 .premium = .ok (r, store') ∧ r.status = "failed" ∧ r.score = 0 := by
  obtain ⟨r, s, hok, hst, hsc, _⟩ := c3_advanced_exhausted_retries_fail
    envAdvFailAll emptyStore "p" "t" "tt" "cr" 7 .premium "решение задачи"
    "APIConnectionError" "APIConnectionError" "APIConnectionError"
    (Or.inr rfl) (by rfl) (by rfl) (by rfl) (by rfl) (by rfl) (by rfl)
  exact ⟨r, s, hok, hst, hsc⟩

/-- C8 counterexample: at the standard tier, with the AI service failing
on the first two attempts and ready to answer (score 77) on the third,
the code performs no retries: the single attempt fails and the result is
the heuristic score 20, not the AI's 77. -/
theorem c8_counterexample :
    (resultOf (check_photo_submission envThirdTry emptyStore "p" "xyz" "tt"
        "cr" 7 .standard)).map (fun r => r.score) = some 20 ∧
    scoreOfDict okResp77 = 77 ∧ ((20 : ℚ) ≠ 77) := by
  exact ⟨by decide, by decide, by decide⟩

/-- C8 (amended): the 3-attempt retry applies to the advanced and premium
tiers; there, when the AI call fails twice and succeeds on the third
attempt, the final result is built from that successful (validated) AI
response.  (The standard tier makes a single attempt, see the
counterexample.) -/
theorem c8_third_attempt_used (env : Env) (store : Store)
    (photo_head task_description task_type checking_criteria : String)
    (user_id : ℕ) (quality : CheckingQuality) (text e1 e2 : String)
    (resp v : List (String × PyVal))
    (hq : quality = .advanced ∨ quality = .premium)
    (hmiss : dictGet store.checks
      ("check:" ++ generate_cache_key photo_head task_description) = none)
    (hpre : env.preprocess = .ok ()) (hocr : env.ocr = .ok text)
    (h1 : env.aiAdvanced 1 = .error e1) (h2 : env.aiAdvanced 2 = .error e2)
    (h3 : env.aiAdvanced 3 = .ok resp)
    (hv : validate_ai_response resp = .ok v)
    (hplag : env.plagFault = none) :
    ∃ r store', check_photo_submission env store photo_head task_description
        task_type checking_criteria user_id quality = .ok (r, store') ∧
      r.status = "checked" ∧ r.score = scoreOfDict v ∧
      r.feedback = (dictGet v "feedback").getD nullV := by
  rw [check_photo_submission_miss env store _ _ _ _ _ _ hmiss]
  unfold computed_check
  have hadv : advanced_analysis env = .ok v := by
    rw [advanced_analysis_third_try env e1 e2 resp h1 h2 h3, hv]
  rcases hq with rfl | rfl
  · have hrp : run_pipeline env store task_description task_type
        checking_criteria user_id .advanced = .ok (text, v, store) := by
      unfold run_pipeline
      rw [hpre, hocr, hadv]
    rw [hrp]
    exact ⟨_, _, rfl, rfl, rfl, rfl⟩
  · have hrp : run_pipeline env store task_description task_type
        checking_criteria user_id .premium = .ok (text,
          dictSet v "plagiarism_score"
            (numV (check_plagiarism store text user_id).1),
          (check_plagiarism store text user_id).2) := by
      unfold run_pipeline
      rw [hpre, hocr, hadv, hplag]
    rw [hrp]
    refine ⟨_, _, rfl, rfl, ?_, ?_⟩
    · show scoreOfDict (dictSet v "plagiarism_score" _) = scoreOfDict v
      unfold scoreOfDict
      rw [dictGet_dictSet_ne _ _ _ _ (by decide)]
    · show (dictGet (dictSet v "plagiarism_score" _) "feedback").getD nullV =
        (dictGet v "feedback").getD nullV
      rw [dictGet_dictSet_ne _ _ _ _ (by decide)]

/-- C8 witness: the amended theorem at the concrete
fails-twice-succeeds-third environment, advanced tier: the result is the
AI's score 77. -/
theorem c8_witness :
    ∃ r store', check_photo_submission envThirdTry emptyStore "p" "t" "tt"
        "cr" 7 .advanced = .ok (r, store') ∧ r.status = "checked" ∧
      r.score = 77 := by
  have hv : validate_ai_response okResp77 = .ok
      [("score", numV (max 0 (min 100 77))), ("feedback", strV "Хорошая работа"),
       ("detailed_analysis", dictV []), ("confidence", numV (9/10)),
       ("suggestions", arrV [])] := by rfl
  obtain ⟨r, s, hok, hst, hsc, _⟩ := c8_third_attempt_used envThirdTry
    emptyStore "p" "t" "tt" "cr" 7 .advanced "" "APITimeoutError"
    "APITimeoutError" okResp77 _ (Or.inl rfl) (by rfl) (by rfl) (by rfl)
    (by rfl) (by rfl) (by rfl) hv (by rfl)
  refine ⟨r, s, hok, hst, ?_⟩
  rw [hsc]
  show ((max 0 (min 100 77) : ℚ)) = 77
  norm_num

/-- C6 counterexample: an AI response whose `score` field is a non-numeric
string makes `float(response.get("score", 0))` raise inside the validator,
so "returns without raising for every AI response dictionary" fails. -/
theorem c6_counterexample :
    validate_ai_response [("score", strV "high")] =
      .error "ValueError: could not convert string to float" := by rfl

/-- C6 (amended): for every AI response whose `score` field, when present,
is `float`-convertible, the validator returns without raising; every
missing required field is replaced by its default (score=50, the default
feedback string, `detailed_analysis={}`), the score is clamped into
`[0,100]`, `confidence` defaults to 0.8 when absent, and `suggestions`
defaults to `[]` when absent. -/
theorem c6_validator_defaulting (resp : List (String × PyVal))
    (h : scoreConvertible resp = true) :
    ∃ r, validate_ai_response resp = .ok r ∧
      (∃ q : ℚ, dictGet r "score" = some (numV q) ∧ 0 ≤ q ∧ q ≤ 100) ∧
      (dictHas resp "score" = false → dictGet r "score" = some (numV 50)) ∧
      (dictHas resp "feedback" = false →
        dictGet r "feedback" =
          some (strV "Не удалось полностью проанализировать работу")) ∧
      (dictHas resp "detailed_analysis" = false →
        dictGet r "detailed_analysis" = some (dictV [])) ∧
      (dictGet r "confidence" = dictGet resp "confidence" ∨
        (dictGet resp "confidence" = none ∧
          dictGet r "confidence" = some (numV (4/5)))) ∧
      (dictHas resp "suggestions" = false → dictGet r "suggestions" = some (arrV [])) :=
  validate_ai_response_spec resp h

/-- C6 witness: the empty response (all three required fields missing)
validates without raising, with score defaulted to 50. -/
theorem c6_witness :
    scoreConvertible ([] : List (String × PyVal)) = true ∧
    ∃ r, validate_ai_response [] = .ok r ∧ dictGet r "score" = some (numV 50) := by
  refine ⟨by decide, ?_⟩
  obtain ⟨r, hok, _, hmiss50, _, _, _, _⟩ := c6_validator_defaulting [] (by decide)
  exact ⟨r, hok, hmiss50 (by decide)⟩

/-- C7: the plagiarism check reads only the 101 most recent history
entries; it appends the current text to the history only after computing
the score (the new history is the old one with the text prepended);
resubmitting a text identical to a read history entry yields uniqueness 0;
and a nonempty text sharing no character with any read history entry
yields uniqueness 100. -/
theorem c7_plagiarism_uniqueness (store : Store) (text : String) (user_id : ℕ) :
    (∀ store2 : Store,
      (worksFor store2 user_id).take 101 = (worksFor store user_id).take 101 →
        (check_plagiarism store2 text user_id).1 =
          (check_plagiarism store text user_id).1) ∧
    worksFor (check_plagiarism store text user_id).2 user_id =
      text :: worksFor store user_id ∧
    (text ∈ (worksFor store user_id).take 101 →
      (check_plagiarism store text user_id).1 = 0) ∧
    ((text.toList ≠ [] ∧ ∀ w ∈ (worksFor store user_id).take 101,
        ∀ c ∈ text.toList, c ∉ w.toList) →
      (check_plagiarism store text user_id).1 = 100) := by
  refine ⟨?_, ?_, ?_, ?_⟩
  · intro store2 h
    show 100 - ((worksFor store2 user_id).take 101).foldl
        (fun m work => max m (calculate_similarity text work)) 0 * 100 =
      100 - ((worksFor store user_id).take 101).foldl
        (fun m work => max m (calculate_similarity text work)) 0 * 100
    rw [h]
  · exact worksFor_pushWork_self store user_id text
  · intro hmem
    show 100 - ((worksFor store user_id).take 101).foldl
        (fun m work => max m (calculate_similarity text work)) 0 * 100 = 0
    have hub : ((worksFor store user_id).take 101).foldl
        (fun m work => max m (calculate_similarity text work)) 0 ≤ 1 :=
      foldl_max_le (fun w => calculate_similarity text w) 1 _ 0 (by norm_num)
        (fun w _ => calculate_similarity_le_one text w)
    have hlb : 1 ≤ ((worksFor store user_id).take 101).foldl
        (fun m work => max m (calculate_similarity text work)) 0 := by
      have hm := le_foldl_max_mem (fun w => calculate_similarity text w)
        ((worksFor store user_id).take 101) 0 text hmem
      simpa [calculate_similarity_self] using hm
    rw [le_antisymm hub hlb]
    norm_num
  · rintro ⟨hne, hdisj⟩
    show 100 - ((worksFor store user_id).take 101).foldl
        (fun m work => max m (calculate_similarity text work)) 0 * 100 = 100
    have hzero : ∀ w ∈ (worksFor store user_id).take 101,
        calculate_similarity text w = 0 := by
      intro w hw
      apply ratcliffRatio_disjoint text.toList w.toList (hdisj w hw)
      have hpos : 0 < text.toList.length := List.length_pos.mpr hne
      omega
    have hub : ((worksFor store user_id).take 101).foldl
        (fun m work => max m (calculate_similarity text work)) 0 ≤ 0 :=
      foldl_max_le (fun w => calculate_similarity text w) 0 _ 0 (le_refl 0)
        (fun w hw => le_of_eq (hzero w hw))
    have hlb := le_foldl_max_init (fun w => calculate_similarity text w)
      ((worksFor store user_id).take 101) 0
    rw [le_antisymm hub hlb]
    norm_num

/-- C7 witness: with history `["ab"]` for user 7, resubmitting `"ab"`
yields uniqueness 0. -/
theorem c7_witness : (check_plagiarism ⟨[], [(7, ["ab"])]⟩ "ab" 7).1 = 0 := by
  exact (c7_plagiarism_uniqueness ⟨[], [(7, ["ab"])]⟩ "ab" 7).2.2.1 (by decide)

/-! ### Invariant helpers for C2 -/

theorem dict_props_basic (t0 td : String) :
    (∃ qs : ℚ, dictGet (basic_analysis t0 td) "score" = some (numV qs) ∧
      0 ≤ qs ∧ qs ≤ 100) ∧
    (∃ c : ℚ, (dictGet (basic_analysis t0 td) "confidence").getD (numV (4/5)) =
      numV c ∧ 0 ≤ c ∧ c ≤ 1) := by
  obtain ⟨h20, h90⟩ := basic_analysis_score_bounds t0 td
  constructor
  · refine ⟨scoreOfDict (basic_analysis t0 td), rfl, ?_, ?_⟩
    · linarith
    · linarith
  · refine ⟨1/2, ?_, by norm_num, by norm_num⟩
    rw [basic_analysis_confidence]
    rfl

theorem dict_props_validated (resp rr : List (String × PyVal))
    (hval : validate_ai_response resp = .ok rr) :
    (∃ qs : ℚ, dictGet rr "score" = some (numV qs) ∧ 0 ≤ qs ∧ qs ≤ 100) ∧
    ((∃ c : ℚ, (dictGet rr "confidence").getD (numV (4/5)) = numV c ∧
        0 ≤ c ∧ c ≤ 1) ∨
      (∃ v, dictGet resp "confidence" = some v ∧
        (dictGet rr "confidence").getD (numV (4/5)) = v)) := by
  obtain ⟨hscore, hdisj⟩ := validate_ai_response_ok_inv resp rr hval
  refine ⟨hscore, ?_⟩
  rcases hdisj with heq | ⟨hnone, hdef⟩
  · cases hg : dictGet resp "confidence" with
    | none =>
        left
        rw [heq, hg]
        exact ⟨4/5, rfl, by norm_num, by norm_num⟩
    | some v =>
        right
        exact ⟨v, rfl, by rw [heq, hg]; rfl⟩
  · left
    rw [hdef]
    exact ⟨4/5, rfl, by norm_num, by norm_num⟩

theorem run_pipeline_dict_props (env : Env) (store : Store)
    (td tt cr : String) (uid : ℕ) (q : CheckingQuality)
    (text : String) (dict : List (String × PyVal)) (store1 : Store)
    (hrp : run_pipeline env store td tt cr uid q = .ok (text, dict, store1)) :
    (∃ qs : ℚ, dictGet dict "score" = some (numV qs) ∧ 0 ≤ qs ∧ qs ≤ 100) ∧
    ((∃ c : ℚ, (dictGet dict "confidence").getD (numV (4/5)) = numV c ∧
        0 ≤ c ∧ c ≤ 1) ∨
      (∃ n resp v, (env.aiAdvanced n = .ok resp ∨ env.aiStandard 1 = .ok resp) ∧
        dictGet resp "confidence" = some v ∧
        (dictGet dict "confidence").getD (numV (4/5)) = v)) := by
  unfold run_pipeline at hrp
  cases hp : env.preprocess with
  | error e => rw [hp] at hrp; simp at hrp
  | ok u =>
  rw [hp] at hrp
  cases ho : env.ocr with
  | error e => rw [ho] at hrp; simp at hrp
  | ok t0 =>
  rw [ho] at hrp
  cases q with
  | basic =>
      simp only at hrp
      have hd : basic_analysis t0 td = dict := by
        have h2 := Except.ok.inj hrp
        exact congrArg (fun p => p.2.1) h2
      rw [← hd]
      exact ⟨(dict_props_basic t0 td).1, Or.inl (dict_props_basic t0 td).2⟩
  | standard =>
      simp only at hrp
      have hd : standard_analysis env t0 td tt = dict := by
        have h2 := Except.ok.inj hrp
        exact congrArg (fun p => p.2.1) h2
      rw [← hd]
      cases hcl : env.hasClient with
      | false =>
          rw [show standard_analysis env t0 td tt = basic_analysis t0 td from by
            simp [standard_analysis, hcl]]
          exact ⟨(dict_props_basic t0 td).1, Or.inl (dict_props_basic t0 td).2⟩
      | true =>
          cases hs1 : env.aiStandard 1 with
          | error e =>
              rw [show standard_analysis env t0 td tt = basic_analysis t0 td from by
                simp [standard_analysis, hcl, hs1]]
              exact ⟨(dict_props_basic t0 td).1, Or.inl (dict_props_basic t0 td).2⟩
          | ok resp =>
              cases hv : validate_ai_response resp with
              | error e =>
                  rw [show standard_analysis env t0 td tt = basic_analysis t0 td from by
                    simp [standard_analysis, hcl, hs1, hv]]
                  exact ⟨(dict_props_basic t0 td).1, Or.inl (dict_props_basic t0 td).2⟩
              | ok rr =>
                  rw [show standard_analysis env t0 td tt = rr from by
                    simp [standard_analysis, hcl, hs1, hv]]
                  obtain ⟨hs, hc⟩ := dict_props_validated resp rr hv
                  refine ⟨hs, ?_⟩
                  rcases hc with hok | ⟨v, hg, hval2⟩
                  · exact Or.inl hok
                  · exact Or.inr ⟨1, resp, v, Or.inr rfl, hg, hval2⟩
  | advanced =>
      simp only at hrp
      cases ha : advanced_analysis env with
      | error e => rw [ha] at hrp; simp at hrp
      | ok rr =>
          rw [ha] at hrp
          simp only at hrp
          have hd : rr = dict := by
            have h2 := Except.ok.inj hrp
            exact congrArg (fun p => p.2.1) h2
          obtain ⟨n, resp, hai, hv⟩ := advanced_analysis_ok_inv env rr ha
          rw [← hd]
          obtain ⟨hs, hc⟩ := dict_props_validated resp rr hv
          refine ⟨hs, ?_⟩
          rcases hc with hok | ⟨v, hg, hval2⟩
          · exact Or.inl hok
          · exact Or.inr ⟨n, resp, v, Or.inl hai, hg, hval2⟩
  | premium =>
      simp only at hrp
      cases ha : advanced_analysis env with
      | error e => rw [ha] at hrp; simp at hrp
      | ok rr =>
          rw [ha] at hrp
          cases hpf : env.plagFault with
          | some e => rw [hpf] at hrp; simp at hrp
          | none =>
              rw [hpf] at hrp
              simp only at hrp
              have hd : dictSet rr "plagiarism_score"
                  (numV (check_plagiarism store t0 uid).1) = dict := by
                have h2 := Except.ok.inj hrp
                exact congrArg (fun p => p.2.1) h2
              obtain ⟨n, resp, hai, hv⟩ := advanced_analysis_ok_inv env rr ha
              obtain ⟨hscore, hconf⟩ := dict_props_validated resp rr hv
              rw [← hd]
              have hne1 : dictGet (dictSet rr "plagiarism_score"
                  (numV (check_plagiarism store t0 uid).1)) "score" =
                  dictGet rr "score" := dictGet_dictSet_ne _ _ _ _ (by decide)
              have hne2 : dictGet (dictSet rr "plagiarism_score"
                  (numV (check_plagiarism store t0 uid).1)) "confidence" =
                  dictGet rr "confidence" := dictGet_dictSet_ne _ _ _ _ (by decide)
              rw [hne1, hne2]
              refine ⟨hscore, ?_⟩
              rcases hconf with hok | ⟨v, hg, hval2⟩
              · exact Or.inl hok
              · exact Or.inr ⟨n, resp, v, Or.inl hai, hg, hval2⟩

/-- C2 counterexample: an AI response reporting `confidence = 5` passes
the validator untouched, so the returned result has
`confidence_score = 5 > 1`: the `0 ≤ confidence_score ≤ 1` invariant does
not hold for arbitrary AI responses. -/
theorem c2_counterexample :
    (resultOf (check_photo_submission envConf5 emptyStore "p" "t" "tt" "cr" 7
        .advanced)).map confQ = some (some 5) ∧ ¬((5 : ℚ) ≤ 1) := by
  exact ⟨by decide, by decide⟩

/-- C2 (amended): on every cache-miss invocation, `0 ≤ score ≤ 100` holds
unconditionally for the returned result (the validator always clamps the
score, the heuristic caps its own, and the failure path sets 0).  The
returned `confidence_score` is a number in `[0, 1]` — 0 on the failure
path, 0.5 from the heuristic, 0.8 when defaulted — except in exactly one
case: a `confidence` value present in an AI response is passed through to
the result unvalidated (see the counterexample). -/
theorem c2_result_bounds (env : Env) (store : Store)
    (photo_head task_description task_type checking_criteria : String)
    (user_id : ℕ) (quality : CheckingQuality)
    (hmiss : dictGet store.checks
      ("check:" ++ generate_cache_key photo_head task_description) = none) :
    ∀ r store', check_photo_submission env store photo_head task_description
        task_type checking_criteria user_id quality = .ok (r, store') →
      (0 ≤ r.score ∧ r.score ≤ 100) ∧
      ((∃ c : ℚ, r.confidence_score = numV c ∧ 0 ≤ c ∧ c ≤ 1) ∨
        (∃ n resp v,
          (env.aiAdvanced n = .ok resp ∨ env.aiStandard 1 = .ok resp) ∧
          dictGet resp "confidence" = some v ∧ r.confidence_score = v)) := by
  intro r store' h
  rw [check_photo_submission_miss env store _ _ _ _ _ _ hmiss] at h
  unfold computed_check at h
  cases hrp : run_pipeline env store task_description task_type
      checking_criteria user_id quality with
  | error e =>
      rw [hrp] at h
      simp only at h
      have h2 := Except.ok.inj h
      have hr : failed_result e quality env.elapsed = r := congrArg Prod.fst h2
      rw [← hr]
      exact ⟨⟨le_refl 0, by show (0 : ℚ) ≤ 100; norm_num⟩,
        Or.inl ⟨0, rfl, le_refl 0, by show (0 : ℚ) ≤ 1; norm_num⟩⟩
  | ok out =>
      obtain ⟨text, dict, store1⟩ := out
      rw [hrp] at h
      simp only at h
      have h2 := Except.ok.inj h
      have hr : build_checking_result text dict quality env.elapsed = r :=
        congrArg Prod.fst h2
      obtain ⟨⟨qs, hqs, hq0, hq100⟩, hcdisj⟩ :=
        run_pipeline_dict_props env store task_description task_type
          checking_criteria user_id quality text dict store1 hrp
      have hscore : r.score = qs := by
        rw [← hr]
        show scoreOfDict dict = qs
        unfold scoreOfDict
        rw [hqs]
      have hcs : r.confidence_score =
          (dictGet dict "confidence").getD (numV (4/5)) := by
        rw [← hr]
        rfl
      refine ⟨by rw [hscore]; exact ⟨hq0, hq100⟩, ?_⟩
      rcases hcdisj with ⟨c, hcval, hc0, hc1⟩ | ⟨n, resp, v, hsrc, hg, hval2⟩
      · exact Or.inl ⟨c, by rw [hcs, hcval], hc0, hc1⟩
      · exact Or.inr ⟨n, resp, v, hsrc, hg, by rw [hcs, hval2]⟩

/-- C2 witness: the amended theorem applied to the failing-preprocessing
environment, standard tier: score 0 and confidence 0 lie in range. -/
theorem c2_witness :
    ∃ r store', check_photo_submission envPreprocessFail emptyStore "p" "t"
        "tt" "cr" 7 .standard = .ok (r, store') ∧
      (0 ≤ r.score ∧ r.score ≤ 100) ∧
      ((∃ c : ℚ, r.confidence_score = numV c ∧ 0 ≤ c ∧ c ≤ 1) ∨
        (∃ n resp v,
          (envPreprocessFail.aiAdvanced n = .ok resp ∨
            envPreprocessFail.aiStandard 1 = .ok resp) ∧
          dictGet resp "confidence" = some v ∧ r.confidence_score = v)) := by
  have hb := c2_result_bounds envPreprocessFail emptyStore "p" "t" "tt" "cr"
    7 .standard (by rfl)
  have hok : check_photo_submission envPreprocessFail emptyStore "p" "t" "tt"
      "cr" 7 .standard =
      .ok (failed_result "cv2.error: empty image" .standard 1, emptyStore) := by rfl
  exact ⟨_, _, hok, hb _ _ hok⟩

/-- C5 (code bug): two identical premium-tier calls.  `CacheManager.set`
cannot serialize the `CheckingQuality` enum inside
`checking_result.__dict__` (`json.dumps` raises, caught inside `set`), so
the cache write silently fails on every computed check: after the first
call the store holds no `check:*` entry (only the plagiarism history grew),
and the second call recomputes instead of hitting the cache — its
`plagiarism_score` is 0 while the first call returned 100, so the two
results differ in more than `processing_time`. -/
theorem c5_cache_write_never_persists :
    (∃ r1, check_photo_submission envC5 emptyStore "p" "t" "tt" "cr" 7
        .premium = .ok (r1, ⟨[], [(7, ["ab"])]⟩) ∧ plagQ r1 = some 100) ∧
    (∃ r2 store2, check_photo_submission envC5 ⟨[], [(7, ["ab"])]⟩ "p" "t"
        "tt" "cr" 7 .premium = .ok (r2, store2) ∧ plagQ r2 = some 0) := by
  constructor
  · have hrp : run_pipeline envC5 emptyStore "t" "tt" "cr" 7 .premium =
        .ok ("ab",
          [("score", numV (max 0 (min 100 77))),
           ("feedback", strV "Хорошая работа"),
           ("detailed_analysis", dictV []), ("confidence", numV (9/10)),
           ("suggestions", arrV []),
           ("plagiarism_score", numV (100 - 0 * 100))],
          ⟨[], [(7, ["ab"])]⟩) := by rfl
    rw [check_photo_submission_miss envC5 emptyStore "p" "t" "tt" "cr" 7
      .premium (by rfl)]
    unfold computed_check
    rw [hrp]
    simp only [cache_set_result_fails]
    refine ⟨_, rfl, ?_⟩
    have hp : plagQ (build_checking_result "ab"
        [("score", numV (max 0 (min 100 77))),
         ("feedback", strV "Хорошая работа"),
         ("detailed_analysis", dictV []), ("confidence", numV (9/10)),
         ("suggestions", arrV []),
         ("plagiarism_score", numV (100 - 0 * 100))] .premium
        envC5.elapsed) = some (100 - 0 * 100) := by rfl
    rw [hp]
    norm_num
  · have hrp2 : run_pipeline envC5 ⟨[], [(7, ["ab"])]⟩ "t" "tt" "cr" 7
        .premium =
        .ok ("ab",
          [("score", numV (max 0 (min 100 77))),
           ("feedback", strV "Хорошая работа"),
           ("detailed_analysis", dictV []), ("confidence", numV (9/10)),
           ("suggestions", arrV []),
           ("plagiarism_score",
            numV (100 - max 0 (calculate_similarity "ab" "ab") * 100))],
          ⟨[], [(7, ["ab", "ab"])]⟩) := by rfl
    rw [check_photo_submission_miss envC5 ⟨[], [(7, ["ab"])]⟩ "p" "t" "tt"
      "cr" 7 .premium (by rfl)]
    unfold computed_check
    rw [hrp2]
    simp only [cache_set_result_fails]
    refine ⟨_, _, rfl, ?_⟩
    have hp2 : plagQ (build_checking_result "ab"
        [("score", numV (max 0 (min 100 77))),
         ("feedback", strV "Хорошая работа"),
         ("detailed_analysis", dictV []), ("confidence", numV (9/10)),
         ("suggestions", arrV []),
         ("plagiarism_score",
          numV (100 - max 0 (calculate_similarity "ab" "ab") * 100))]
        .premium envC5.elapsed) =
        some (100 - max 0 (calculate_similarity "ab" "ab") * 100) := by rfl
    rw [hp2, calculate_similarity_self]
    rw [show max (0 : ℚ) 1 = 1 from max_eq_right (by norm_num)]
    norm_num

/-- C4 (amended): the heuristic score the code computes equals the amended
formula — `+30` only when the recognized text exceeds 50 characters, no
second length bonus, word-set overlap scaled by 40 with floor division
over `max |words(task)| 1`, a flat `+20`, capped at 100. -/
theorem c4_amended_heuristic_formula (t d : String) :
    scoreOfDict (basic_analysis t d) = ((amended_heuristic_score t d : ℕ) : ℚ) := by
  rw [scoreOfDict_basic_analysis]
  have hnodup_d : (wordSet d).Nodup := List.nodup_dedup _
  have hcard : (wordSet d).toFinset.card = (wordSet d).length := by
    rw [List.card_toFinset, List.dedup_eq_self.mpr hnodup_d]
  have hinter : ((wordSet d).toFinset ∩ (wordSet t).toFinset).card =
      ((wordSet d).filter (fun w => (wordSet t).contains w)).length := by
    have h1 : (wordSet d).toFinset ∩ (wordSet t).toFinset =
        ((wordSet d).filter (fun w => (wordSet t).contains w)).toFinset := by
      rw [List.toFinset_filter]
      ext a
      simp [Finset.mem_filter, Finset.mem_inter, List.mem_toFinset]
    rw [h1, List.card_toFinset,
      List.dedup_eq_self.mpr (hnodup_d.filter _)]
  simp only [amended_heuristic_score]
  rw [hinter, hcard]
